import Mathlib

/-!
Verification development for the 5300-Echidna statement executor
(`SQLExec.cpp`).  The executor source is embedded shallowly: each C++
member function of `SQLExec` becomes a Lean function over an explicit
database state.  The storage layer (`DbRelation`/`DbIndex`), the schema
catalog (`Tables`/`Columns`/`Indices`) and the evaluation-plan engine
(`EvalPlan`) are declared but not implemented in the repository, so they
are modelled from the specification's storage contract (spec sections
4.2-4.4); every such definition carries a doc comment saying so.
-/

namespace Echidna

abbrev Identifier := String

/-- Embeds the C++ `Value` tagged union (declared in the missing header;
shape fixed by spec section 3): an INT, TEXT or BOOLEAN payload.  The
default-constructed `Value()` used by `create_index` is `VInt 0`, so that
`seq_in_index` increments from 1 as spec section 4.5 states. -/
inductive Value where
  | VInt (n : Int)
  | VText (s : String)
  | VBool (b : Bool)
deriving Repr, DecidableEq

/-- Embeds reading the `.n` field of a C++ `Value` (set from an int, or
from a bool as 0/1). -/
def Value.getN : Value → Int
  | VInt n => n
  | VBool b => if b then 1 else 0
  | VText _ => 0

/-- Embeds reading the `.s` field of a C++ `Value` (empty unless TEXT). -/
def Value.getS : Value → String
  | VText s => s
  | _ => ""

/-- A `ValueDict` row: column name to value, insertion-ordered. -/
abbrev Row := List (Identifier × Value)

def rowFind : Row → Identifier → Option Value
  | [], _ => none
  | (k, v) :: rest, key => if k = key then some v else rowFind rest key

/-- Embeds C++ `std::map::operator[]` read on a `ValueDict`: a missing key
default-constructs `Value()`, i.e. `VInt 0`. -/
def rowFindD (r : Row) (k : Identifier) : Value := (rowFind r k).getD (Value.VInt 0)

/-- Embeds C++ `row[k] = v` on a `ValueDict`: replace in place or append. -/
def rowSet : Row → Identifier → Value → Row
  | [], k, v => [(k, v)]
  | (k0, v0) :: rest, k, v =>
      if k0 = k then (k0, v) :: rest else (k0, v0) :: rowSet rest k v

/-- Modelled from the spec: `project(handle, column_names)` materializes
the named columns of a stored row (spec section 4.2); a requested name
absent from the row yields no entry. -/
def rowRestrict (r : Row) (cols : List Identifier) : Row :=
  cols.filterMap (fun c => (rowFind r c).map (fun v => (c, v)))

/-- Modelled from the spec: a storage-contract `where` conjunction matches
a row when every key/value pair agrees by equality (spec section 4.2). -/
def rowMatches (w : Row) (r : Row) : Bool :=
  w.all (fun kv => rowFind r kv.1 == some kv.2)

/-- Modelled from the spec: one physically stored relation of the external
storage engine - insertion-ordered rows addressed by opaque handles
(spec sections 3 and 4.2). -/
structure StoredRel where
  rows : List (Nat × Row)
  nextHandle : Nat
deriving Repr, DecidableEq

def StoredRel.empty : StoredRel := { rows := [], nextHandle := 0 }

/-- Modelled from the spec: `insert(row) -> Handle` appends the row under
a fresh handle (spec section 4.2). -/
def StoredRel.insert (r : StoredRel) (row : Row) : Nat × StoredRel :=
  (r.nextHandle, { rows := r.rows ++ [(r.nextHandle, row)], nextHandle := r.nextHandle + 1 })

/-- Modelled from the spec: `del(handle)` removes the tuple at the handle
(spec section 4.2). -/
def StoredRel.del (r : StoredRel) (h : Nat) : StoredRel :=
  { r with rows := r.rows.filter (fun p => p.1 != h) }

/-- Modelled from the spec: `select(where)` returns the handles of all
rows matching every key/value pair (spec section 4.2). -/
def StoredRel.select (r : StoredRel) (w : Row) : List Nat :=
  (r.rows.filter (fun p => rowMatches w p.2)).map (fun p => p.1)

/-- Modelled from the spec: `select()` with no `where` returns all handles
(spec section 4.2). -/
def StoredRel.selectAll (r : StoredRel) : List Nat := r.rows.map (fun p => p.1)

/-- Modelled from the spec: `project(handle)` materializes the full stored
row (spec section 4.2); an absent handle yields the empty row (unreachable
in the executor paths proved below, where handles come from `select`). -/
def StoredRel.project (r : StoredRel) (h : Nat) : Row :=
  match r.rows.find? (fun p => p.1 == h) with
  | some p => p.2
  | none => []

/-- Deleting a list of handles one by one, as the executor's
`for (handle : *rows) rel.del(handle)` loops do. -/
def StoredRel.delAll (r : StoredRel) (hs : List Nat) : StoredRel :=
  hs.foldl StoredRel.del r

/-- Well-formedness of a stored relation: handles are below the allocation
counter and pairwise distinct.  The external storage engine guarantees
both (handles are fresh per insertion, spec section 3). -/
def StoredRel.wf (r : StoredRel) : Prop :=
  (∀ p ∈ r.rows, p.1 < r.nextHandle) ∧ r.rows.Pairwise (fun a b => a.1 ≠ b.1)

instance (r : StoredRel) : Decidable r.wf := by
  unfold StoredRel.wf
  infer_instance

/-- The C++ constant `Tables::TABLE_NAME`. -/
def tablesName : Identifier := "_tables"

/-- The C++ constant `Columns::TABLE_NAME`. -/
def columnsName : Identifier := "_columns"

/-- The C++ constant `Indices::TABLE_NAME`. -/
def indicesName : Identifier := "_indices"

/-- The whole database state: the three self-describing catalog relations
(`_tables`, `_columns`, `_indices`) as stored relations, the physical user
relations of the storage engine keyed by name, and the physical indices
keyed by (table name, index name) with the handles inserted into each. -/
structure DbState where
  tablesRel : StoredRel
  columnsRel : StoredRel
  indicesRel : StoredRel
  userRels : List (Identifier × StoredRel)
  physIdx : List ((Identifier × Identifier) × List Nat)
deriving Repr, DecidableEq

/-- Modelled from the spec: whether a physical user relation named `t`
exists in the storage engine (spec section 4.2). -/
def lookupRel (db : DbState) (t : Identifier) : Option StoredRel :=
  (db.userRels.find? (fun p => p.1 == t)).map (fun p => p.2)

/-- Replaces the stored contents of user relation `t`. -/
def setRel (db : DbState) (t : Identifier) (r : StoredRel) : DbState :=
  { db with userRels := db.userRels.map (fun p => if p.1 == t then (t, r) else p) }

/-- Modelled from the spec: whether the physical index (t, i) exists. -/
def lookupIdx (db : DbState) (t i : Identifier) : Option (List Nat) :=
  (db.physIdx.find? (fun p => p.1 == (t, i))).map (fun p => p.2)

/-- The errors the executor raises or propagates.  `SQLExecError` messages
from `SQLExec.cpp` are represented structurally, one constructor per
`throw SQLExecError(...)` site, carrying the message's parameters;
`relation` is a `DbRelationError` from the external storage engine. -/
inductive SqlErr where
  /-- "not implemented" from `column_definition` on a non-INT/TEXT type. -/
  | notImplementedColumnType
  /-- "unrecognized DROP type" from `drop_table`. -/
  | unrecognizedDropType
  /-- "Cannot drop a schema table!" from `drop_table`. -/
  | cannotDropSchemaTable
  /-- "attempting to insert into non-existent table t" from `insert`. -/
  | insertNonexistentTable (t : Identifier)
  /-- "attempting to delete from non-existent table t" from `del`. -/
  | deleteNonexistentTable (t : Identifier)
  /-- "attempting to select from non-existent table t" from `select`. -/
  | selectNonexistentTable (t : Identifier)
  /-- "attempting to drop non-existent table t" from `drop_table`. -/
  | dropNonexistentTable (t : Identifier)
  /-- "attempting to drop non-existent index i on t" from `drop_index`. -/
  | dropNonexistentIndex (i t : Identifier)
  /-- "no such column c in table t" from `create_index`. -/
  | noSuchColumn (c t : Identifier)
  /-- "column attribute unrecognized" from `insert`. -/
  | columnAttributeUnrecognized
  /-- "unrecognized expression" from `get_where_conjunction`. -/
  | unrecognizedExpression
  /-- "DbRelationError: m", the rewrapping done by `execute`. -/
  | relationWrapped (m : String)
deriving Repr, DecidableEq

inductive DbError where
  | sql (e : SqlErr)
  | relation (m : String)
deriving Repr, DecidableEq

/-- The outcome of executing one statement: a result, a raised error, or
C++ undefined behavior (an out-of-bounds access or dereference of an
empty iterator/null pointer). -/
inductive Outcome (α : Type) where
  | ok (a : α)
  | err (e : DbError)
  | undef
deriving Repr, DecidableEq

/-- The observable operations a statement performs, in order; used to
state ordering contracts (compensating deletes before the `_tables`
delete; metadata removal before the physical drop). -/
inductive Event where
  | insTables (h : Nat)
  | delTables (h : Nat)
  | insColumns (h : Nat)
  | delColumns (h : Nat)
  | insIndices (h : Nat)
  | delIndices (h : Nat)
  | insUser (t : Identifier) (h : Nat)
  | delUser (t : Identifier) (h : Nat)
  | physCreateTable (t : Identifier)
  | physDropTable (t : Identifier)
  | physCreateIndex (t i : Identifier)
  | physDropIndex (t i : Identifier)
  | physInsertIndex (t i : Identifier) (h : Nat)
deriving Repr, DecidableEq

/-- Embeds the C++ `QueryResult` (column names, rows, status message;
column attributes are carried by the caller-facing printer and play no
role in the claims, so they are omitted from the model). -/
structure QueryResult where
  column_names : Option (List Identifier)
  rows : Option (List Row)
  message : String
deriving Repr, DecidableEq

/-- Uniform return shape of each executor function: outcome, final
database state (also on the error paths, where the compensating writes
are visible), and the event trace. -/
abbrev ExecOut := Outcome QueryResult × DbState × List Event

/-- Embeds `hsql::ColumnDefinition::DataType` (INT, TEXT, and DOUBLE as
the representative unsupported type). -/
inductive HsqlColType where
  | INT
  | TEXT
  | DOUBLE
deriving Repr, DecidableEq

/-- Embeds `hsql::ColumnDefinition`: a column name and parsed type. -/
structure ColumnDefinition where
  name : Identifier
  type : HsqlColType
deriving Repr, DecidableEq

/-- Embeds `ColumnAttribute::DataType`. -/
inductive DataType where
  | INT
  | TEXT
  | BOOLEAN
deriving Repr, DecidableEq

/-- Embeds `Expr::OperatorType` (the cases `get_where_conjunction`
distinguishes, plus `OR` and `NONE` as representatives of every other
operator kind). -/
inductive OperatorType where
  | NONE
  | AND
  | OR
  | SIMPLE_OP
deriving Repr, DecidableEq

/-- Embeds the `hsql::Expr` tree consumed by the executor: literals,
column references, `*`, and binary operator nodes carrying an
`OperatorType` and the `opChar` of a simple operator. -/
inductive Expr where
  | litInt (n : Int)
  | litString (s : String)
  | colRef (name : Identifier)
  | star
  | binop (opType : OperatorType) (opChar : Char) (lhs rhs : Expr)
deriving Repr, DecidableEq

/-- Embeds reading `expr->name` (set for column references and string
literals in hsql; empty otherwise). -/
def Expr.exprName : Expr → Identifier
  | colRef n => n
  | litString s => s
  | _ => ""

/-- Modelled from the spec: `Columns::get_columns` reads `_columns`
filtered by table name, preserving insertion order (spec section 4.3).
Returns the raw metadata rows. -/
def getColumnRows (db : DbState) (t : Identifier) : List Row :=
  (db.columnsRel.rows.filter
    (fun p => rowMatches [("table_name", Value.VText t)] p.2)).map (fun p => p.2)

/-- Modelled from the spec: the ordered column-name schema that
`Tables::get_table` binds to a relation, reconstructed from `_columns`
(spec section 4.3). -/
def tableColumnNames (db : DbState) (t : Identifier) : List Identifier :=
  (getColumnRows db t).map (fun r => (rowFindD r "column_name").getS)

/-- Modelled from the spec: the data-type tags of the named schema rows
("TEXT" maps to TEXT, otherwise INT - only those two are ever written by
the executor). -/
def tableColumnAttrs (db : DbState) (t : Identifier) : List DataType :=
  (getColumnRows db t).map
    (fun r => if (rowFindD r "data_type").getS = "TEXT" then DataType.TEXT else DataType.INT)

/-- Appends a name if not already present, preserving first-occurrence
order. -/
def addName (acc : List Identifier) (n : Identifier) : List Identifier :=
  if n ∈ acc then acc else acc ++ [n]

/-- Modelled from the spec: `Indices::get_index_names` reconstructs the
identities of the indices on a table by reading `_indices` grouped by
(table name, index name) (spec section 4.3). -/
def getIndexNames (db : DbState) (t : Identifier) : List Identifier :=
  ((db.indicesRel.rows.filter
      (fun p => rowMatches [("table_name", Value.VText t)] p.2)).map
    (fun p => (rowFindD p.2 "index_name").getS)).foldl addName []

/-- Modelled from the spec: `DbRelation::create` fails with a
`DbRelationError` if the physical storage already exists, else allocates
it; `create_if_not_exists` succeeds silently when it exists
(spec section 4.2). -/
def physTableCreate (t : Identifier) (ifNotExists : Bool) (db : DbState) :
    Except DbError DbState :=
  match lookupRel db t with
  | some _ =>
      if ifNotExists then Except.ok db
      else Except.error (DbError.relation (t ++ " already exists"))
  | none => Except.ok { db with userRels := db.userRels ++ [(t, StoredRel.empty)] }

/-- Modelled from the spec: `DbRelation::drop` deallocates the physical
storage; the spec leaves dropping non-existent storage undefined
(spec section 4.2), modelled as a `DbRelationError` as the BerkeleyDB
backend raises. -/
def physTableDrop (t : Identifier) (db : DbState) : Except DbError DbState :=
  match lookupRel db t with
  | some _ => Except.ok { db with userRels := db.userRels.filter (fun p => p.1 != t) }
  | none => Except.error (DbError.relation (t ++ " does not exist"))

/-- Modelled from the spec: `DbIndex::create` allocates the physical index
structure, failing with a `DbRelationError` if it already exists (by the
same storage contract as `DbRelation::create`, spec section 4.2). -/
def idxCreate (t i : Identifier) (db : DbState) : Except DbError DbState :=
  match lookupIdx db t i with
  | some _ => Except.error (DbError.relation ("index " ++ i ++ " already exists"))
  | none => Except.ok { db with physIdx := db.physIdx ++ [((t, i), [])] }

/-- Modelled from the spec: `DbIndex::drop` deallocates the physical index
structure; dropping a non-existent one is undefined in the spec
(section 4.2), modelled as a `DbRelationError`. -/
def idxDrop (t i : Identifier) (db : DbState) : Except DbError DbState :=
  match lookupIdx db t i with
  | some _ =>
      Except.ok { db with physIdx := db.physIdx.filter (fun p => p.1 != (t, i)) }
  | none => Except.error (DbError.relation ("index " ++ i ++ " does not exist"))

/-- Modelled from the spec: `DbIndex::insert(handle)` indexes an existing
base-table row by handle (spec section 4.2). -/
def idxInsert (t i : Identifier) (h : Nat) (db : DbState) : Except DbError DbState :=
  match lookupIdx db t i with
  | some _ =>
      let upd := db.physIdx.map (fun p => if p.1 == (t, i) then (p.1, p.2 ++ [h]) else p)
      Except.ok { db with physIdx := upd }
  | none => Except.error (DbError.relation ("index " ++ i ++ " does not exist"))

/-- Embeds `hsql::CreateStatement::CreateType` (the two cases dispatched
by `SQLExec::create`). -/
inductive CreateType where
  | kTable
  | kIndex
deriving Repr, DecidableEq

/-- Embeds `hsql::CreateStatement`. -/
structure CreateStatement where
  type : CreateType
  tableName : Identifier
  columns : List ColumnDefinition
  ifNotExists : Bool
  indexName : Identifier
  indexType : Identifier
  indexColumns : List Identifier
deriving Repr, DecidableEq

/-- Embeds `hsql::DropStatement::EntityType` (the two cases dispatched by
`SQLExec::drop`). -/
inductive DropEntity where
  | kTable
  | kIndex
deriving Repr, DecidableEq

/-- Embeds `hsql::DropStatement` (`name` is the table name; `indexName`
the index name for DROP INDEX). -/
structure DropStatement where
  type : DropEntity
  name : Identifier
  indexName : Identifier
deriving Repr, DecidableEq

/-- Embeds `hsql::ShowStatement::ShowType`. -/
inductive ShowType where
  | kTables
  | kColumns
  | kIndex
deriving Repr, DecidableEq

/-- Embeds `hsql::ShowStatement` (`tableName` is a nullable `char*`). -/
structure ShowStatement where
  type : ShowType
  tableName : Option Identifier
deriving Repr, DecidableEq

/-- Embeds `hsql::InsertStatement` (positional VALUES list only, as the
executor consumes it). -/
structure InsertStatement where
  tableName : Identifier
  values : List Expr
deriving Repr, DecidableEq

/-- Embeds `hsql::DeleteStatement`. -/
structure DeleteStatement where
  tableName : Identifier
  expr : Option Expr
deriving Repr, DecidableEq

/-- Embeds `hsql::SelectStatement` restricted to what `SQLExec::select`
reads: the FROM table name, the select list, and the WHERE clause. -/
structure SelectStatement where
  fromTable : Identifier
  selectList : List Expr
  whereClause : Option Expr
deriving Repr, DecidableEq

/-- Embeds the statement union dispatched by `SQLExec::execute`;
`unknown` covers every other `hsql` statement kind (the default branch). -/
inductive SQLStatement where
  | create (st : CreateStatement)
  | drop (st : DropStatement)
  | show (st : ShowStatement)
  | insert (st : InsertStatement)
  | delete (st : DeleteStatement)
  | select (st : SelectStatement)
  | unknown
deriving Repr, DecidableEq

/-- Embeds the recursive `get_where_conjunction(const Expr*, ValueDict*)`
helper of `SQLExec.cpp`: AND nodes recurse into both children; a
`SIMPLE_OP` node with `opChar == '='` adds a binding when its right
operand is an integer or string literal and throws "unrecognized
expression" otherwise; EVERY OTHER node shape falls through both
branches and is silently ignored. -/
def get_where_conjunction : Expr → Row → Except DbError Row
  | Expr.binop OperatorType.AND _ l r, conj =>
      match get_where_conjunction l conj with
      | Except.error e => Except.error e
      | Except.ok c => get_where_conjunction r c
  | Expr.binop OperatorType.SIMPLE_OP c l r, conj =>
      if c = '=' then
        match r with
        | Expr.litInt n => Except.ok (rowSet conj l.exprName (Value.VInt n))
        | Expr.litString s => Except.ok (rowSet conj l.exprName (Value.VText s))
        | _ => Except.error (DbError.sql SqlErr.unrecognizedExpression)
      else Except.ok conj
  | _, conj => Except.ok conj

/-- Modelled from the spec: the `EvalPlan` tree (spec section 4.4) -
`TableScan` over a relation's stored contents, `Select` filtering by a
flattened conjunction, `Project` narrowing to named columns.  The
relation snapshot is captured in the leaf, as the C++ nodes capture a
`DbRelation&` and the state does not change between plan construction
and evaluation within one statement. -/
inductive EvalPlan where
  | TableScan (rel : StoredRel)
  | ScanSelect (conj : Row) (child : EvalPlan)
  | Project (cols : List Identifier) (child : EvalPlan)
deriving Repr, DecidableEq

/-- Modelled from the spec: `optimize()` must return a semantically
equivalent plan and may be the identity transform (spec section 4.4). -/
def EvalPlan.optimize (p : EvalPlan) : EvalPlan := p

/-- Modelled from the spec: the relation a plan scans (used by `pipeline`
to test predicates via targeted projection). -/
def EvalPlan.baseRel : EvalPlan → StoredRel
  | TableScan rel => rel
  | ScanSelect _ c => c.baseRel
  | Project _ c => c.baseRel

/-- Modelled from the spec: `pipeline()` yields row handles - a scan
returns `relation.select()`, a selection retains the handles whose
underlying row matches the predicate (spec section 4.4); `Project` does
not occur on DELETE plans and passes through. -/
def EvalPlan.pipeline : EvalPlan → List Nat
  | TableScan rel => rel.selectAll
  | ScanSelect conj c =>
      (c.pipeline).filter (fun h => rowMatches conj (c.baseRel.project h))
  | Project _ c => c.pipeline

/-- Modelled from the spec: `evaluate()` fully materializes rows - a scan
projects every handle, a selection filters rows by the predicate, a
projection narrows each row to the named columns (spec section 4.4). -/
def EvalPlan.evaluate : EvalPlan → List Row
  | TableScan rel => rel.selectAll.map (fun h => rel.project h)
  | ScanSelect conj c => (c.evaluate).filter (fun r => rowMatches conj r)
  | Project cols c => (c.evaluate).map (fun r => rowRestrict r cols)

/-- The snapshot `Tables::get_table` binds for a user-table scan: the
physical contents if the storage exists (spec section 4.3; a relation
object is constructed without verifying registration). -/
def relSnapshot (db : DbState) (t : Identifier) : StoredRel :=
  (lookupRel db t).getD StoredRel.empty

/-- Failure injection for the storage-engine writes of CREATE TABLE whose
failure has no internal cause in the model (heap-file insert errors):
an optional `DbRelationError` message for the `_tables` insert and for
each `_columns` insert by position. -/
structure Faults where
  tablesInsertFault : Option String
  colInsertFault : Nat → Option String

def noFaults : Faults := { tablesInsertFault := none, colInsertFault := fun _ => none }

namespace SQLExec

/-- Embeds `SQLExec::column_definition`: INT and TEXT map to the matching
`ColumnAttribute`; any other parsed type throws "not implemented". -/
def column_definition (col : ColumnDefinition) :
    Except DbError (Identifier × DataType) :=
  match col.type with
  | HsqlColType.INT => Except.ok (col.name, DataType.INT)
  | HsqlColType.TEXT => Except.ok (col.name, DataType.TEXT)
  | HsqlColType.DOUBLE => Except.error (DbError.sql SqlErr.notImplementedColumnType)

/-- Embeds the `_columns`-insert loop of `SQLExec::create_table`: for each
declared column run `column_definition`, build the metadata row and
insert it, collecting the handles.  Returns the state, handles and
events accumulated so far together with the first failure, so that the
caller's catch blocks can compensate. -/
def insertColumnRows (tname : Identifier) (f : Faults) :
    List ColumnDefinition → Nat → DbState → List Nat → List Event →
    DbState × List Nat × List Event × Option DbError
  | [], _, db, hs, evs => (db, hs, evs, none)
  | c :: rest, i, db, hs, evs =>
      match column_definition c with
      | Except.error e => (db, hs, evs, some e)
      | Except.ok (cn, ca) =>
          match f.colInsertFault i with
          | some m => (db, hs, evs, some (DbError.relation m))
          | none =>
              let ty := if ca = DataType.TEXT then "TEXT" else "INT"
              let row : Row := [("table_name", Value.VText tname),
                                ("column_name", Value.VText cn),
                                ("data_type", Value.VText ty)]
              let ins := db.columnsRel.insert row
              insertColumnRows tname f rest (i + 1)
                { db with columnsRel := ins.2 } (hs ++ [ins.1])
                (evs ++ [Event.insColumns ins.1])

/-- Embeds the nested catch blocks of `SQLExec::create_table`: delete
every `_columns` row inserted for this statement (inner catch), then
delete the `_tables` row (outer catch), then re-raise. -/
def rollbackCreateTable (db : DbState) (colHs : List Nat) (th : Nat)
    (evs : List Event) (e : DbError) : ExecOut :=
  let crel := db.columnsRel.delAll colHs
  let db1 := { db with columnsRel := crel }
  let db2 := { db1 with tablesRel := db1.tablesRel.del th }
  (Outcome.err e, db2, evs ++ colHs.map Event.delColumns ++ [Event.delTables th])

/-- Embeds `SQLExec::create_table`: insert the `_tables` row, insert one
`_columns` row per declared column, then physically create the relation
(`create` or `create_if_not_exists` per the IF NOT EXISTS flag); on any
failure after the `_tables` insert, undo the `_columns` inserts, undo
the `_tables` insert, and re-raise. -/
def create_table (f : Faults) (st : CreateStatement) (db0 : DbState) : ExecOut :=
  match f.tablesInsertFault with
  | some m => (Outcome.err (DbError.relation m), db0, [])
  | none =>
      let row : Row := [("table_name", Value.VText st.tableName)]
      let ins := db0.tablesRel.insert row
      let th := ins.1
      let db1 := { db0 with tablesRel := ins.2 }
      let ev1 := [Event.insTables th]
      match insertColumnRows st.tableName f st.columns 0 db1 [] [] with
      | (db2, colHs, evs, some e) => rollbackCreateTable db2 colHs th (ev1 ++ evs) e
      | (db2, colHs, evs, none) =>
          match physTableCreate st.tableName st.ifNotExists db2 with
          | Except.error e => rollbackCreateTable db2 colHs th (ev1 ++ evs) e
          | Except.ok db3 =>
              (Outcome.ok { column_names := none, rows := none,
                            message := "created table " ++ st.tableName },
               db3, ev1 ++ evs ++ [Event.physCreateTable st.tableName])

/-- Embeds `SQLExec::drop_index`: physically drop the index, verify that
matching `_indices` rows exist (failing with "attempting to drop
non-existent index" otherwise), then delete every `_indices` row of the
(table, index) group. -/
def drop_index (st : DropStatement) (db0 : DbState) : ExecOut :=
  let t := st.name
  let ix := st.indexName
  match idxDrop t ix db0 with
  | Except.error e => (Outcome.err e, db0, [])
  | Except.ok db1 =>
      let w : Row := [("table_name", Value.VText t), ("index_name", Value.VText ix)]
      let idxMeta := db1.indicesRel.select w
      if idxMeta.isEmpty then
        (Outcome.err (DbError.sql (SqlErr.dropNonexistentIndex ix t)), db1,
         [Event.physDropIndex t ix])
      else
        let selected := db1.indicesRel.select w
        let irel := db1.indicesRel.delAll selected
        (Outcome.ok { column_names := none, rows := none,
                      message := "dropped index " ++ ix ++ " on " ++ t },
         { db1 with indicesRel := irel },
         [Event.physDropIndex t ix] ++ selected.map Event.delIndices)

/-- Embeds the `_indices`-insert loop of `SQLExec::create_index`: the
shared `ValueDict` row is mutated per indexed column (`column_name`
replaced, `seq_in_index` incremented) and inserted. -/
def insertIndexRows : List Identifier → Row → DbState → List Event →
    DbState × List Event
  | [], _, db, evs => (db, evs)
  | c :: rest, row, db, evs =>
      let row1 := rowSet row "column_name" (Value.VText c)
      let row2 := rowSet row1 "seq_in_index"
        (Value.VInt ((rowFindD row1 "seq_in_index").getN + 1))
      let ins := db.indicesRel.insert row2
      insertIndexRows rest row2 { db with indicesRel := ins.2 }
        (evs ++ [Event.insIndices ins.1])

/-- Embeds `SQLExec::create_index`: bind the relation via `get_table`
(no `_tables` registration check), verify every named index column
exists in the table's current schema (throwing "no such column" before
any catalog write), insert one `_indices` row per index column with
`seq_in_index` incrementing from 1 and `is_unique` derived from
`index_type == "BTREE"`, then physically create the index; on
physical-creation failure, synthesize a DROP INDEX to erase the
just-inserted rows and re-raise the original failure. -/
def create_index (st : CreateStatement) (db0 : DbState) : ExecOut :=
  let t := st.tableName
  let ix := st.indexName
  let cn := tableColumnNames db0 t
  match st.indexColumns.find? (fun c => !(cn.contains c)) with
  | some c => (Outcome.err (DbError.sql (SqlErr.noSuchColumn c t)), db0, [])
  | none =>
      let row0 : Row := [("table_name", Value.VText t),
                         ("index_name", Value.VText ix),
                         ("column_name", Value.VText ""),
                         ("seq_in_index", Value.VInt 0),
                         ("index_type", Value.VText st.indexType),
                         ("is_unique", Value.VBool (st.indexType == "BTREE"))]
      match insertIndexRows st.indexColumns row0 db0 [] with
      | (db1, evs) =>
          match idxCreate t ix db1 with
          | Except.ok db2 =>
              (Outcome.ok { column_names := none, rows := none,
                            message := "created index " ++ ix },
               db2, evs ++ [Event.physCreateIndex t ix])
          | Except.error e =>
              let dropSt : DropStatement :=
                { type := DropEntity.kIndex, name := t, indexName := ix }
              match drop_index dropSt db1 with
              | (Outcome.ok _, db3, devs) => (Outcome.err e, db3, evs ++ devs)
              | (Outcome.err e2, db3, devs) => (Outcome.err e2, db3, evs ++ devs)
              | (Outcome.undef, db3, devs) => (Outcome.undef, db3, evs ++ devs)

/-- Embeds `SQLExec::drop_table`: refuse the three protected schema-table
names; fail if the table is not registered in `_tables`; then delete the
`_indices` rows of every index on the table, delete the table's
`_columns` rows, physically drop the relation, and delete the `_tables`
row (dereferencing `rows->begin()`, undefined when the re-select is
empty). -/
def drop_table (st : DropStatement) (db0 : DbState) : ExecOut :=
  match st.type with
  | DropEntity.kIndex => (Outcome.err (DbError.sql SqlErr.unrecognizedDropType), db0, [])
  | DropEntity.kTable =>
      let t := st.name
      if t = tablesName ∨ t = columnsName ∨ t = indicesName then
        (Outcome.err (DbError.sql SqlErr.cannotDropSchemaTable), db0, [])
      else
        let w : Row := [("table_name", Value.VText t)]
        let tabMeta := db0.tablesRel.select w
        if tabMeta.isEmpty then
          (Outcome.err (DbError.sql (SqlErr.dropNonexistentTable t)), db0, [])
        else
          let idxHs := db0.indicesRel.select w
          let db1 := { db0 with indicesRel := db0.indicesRel.delAll idxHs }
          let colHs := db1.columnsRel.select w
          let db2 := { db1 with columnsRel := db1.columnsRel.delAll colHs }
          let evs := idxHs.map Event.delIndices ++ colHs.map Event.delColumns
          match physTableDrop t db2 with
          | Except.error e => (Outcome.err e, db2, evs)
          | Except.ok db3 =>
              match db3.tablesRel.select w with
              | [] => (Outcome.undef, db3, evs ++ [Event.physDropTable t])
              | h :: _ =>
                  (Outcome.ok { column_names := none, rows := none,
                                message := "dropped table " ++ t },
                   { db3 with tablesRel := db3.tablesRel.del h },
                   evs ++ [Event.physDropTable t, Event.delTables h])

/-- Embeds the row-building loop of `SQLExec::insert`: iterate over the
statement's value list, indexing the relation's column-name sequence at
each value position (`cn[i]`, an unchecked `std::vector` access that is
undefined when the value list is longer than the schema) and accepting
only integer and string literals. -/
def buildInsertRow : List Expr → List Identifier → Row → Outcome Row
  | [], _, acc => Outcome.ok acc
  | _ :: _, [], _ => Outcome.undef
  | v :: vs, c :: cs, acc =>
      match v with
      | Expr.litInt n => buildInsertRow vs cs (rowSet acc c (Value.VInt n))
      | Expr.litString s => buildInsertRow vs cs (rowSet acc c (Value.VText s))
      | _ => Outcome.err (DbError.sql SqlErr.columnAttributeUnrecognized)

/-- Embeds the index-maintenance loop of `SQLExec::insert`: insert the new
row's handle into every existing index on the table. -/
def insertIntoIndices (t : Identifier) (h : Nat) :
    List Identifier → DbState → List Event → DbState × List Event × Option DbError
  | [], db, evs => (db, evs, none)
  | i :: rest, db, evs =>
      match idxInsert t i h db with
      | Except.error e => (db, evs, some e)
      | Except.ok db1 =>
          insertIntoIndices t h rest db1 (evs ++ [Event.physInsertIndex t i h])

/-- Embeds `SQLExec::insert`: fail if the table has no `_tables` row;
build the row by positional mapping of the value list onto the
relation's column order; insert into the base relation and then into
every existing index on the table. -/
def insert (st : InsertStatement) (db0 : DbState) : ExecOut :=
  let t := st.tableName
  let w : Row := [("table_name", Value.VText t)]
  if (db0.tablesRel.select w).isEmpty then
    (Outcome.err (DbError.sql (SqlErr.insertNonexistentTable t)), db0, [])
  else
    let cn := tableColumnNames db0 t
    match buildInsertRow st.values cn [] with
    | Outcome.err e => (Outcome.err e, db0, [])
    | Outcome.undef => (Outcome.undef, db0, [])
    | Outcome.ok row =>
        match lookupRel db0 t with
        | none => (Outcome.err (DbError.relation (t ++ " does not exist")), db0, [])
        | some rel =>
            let ins := rel.insert row
            let db1 := setRel db0 t ins.2
            let idxNames := getIndexNames db1 t
            match insertIntoIndices t ins.1 idxNames db1 [Event.insUser t ins.1] with
            | (db2, evs, some e) => (Outcome.err e, db2, evs)
            | (db2, evs, none) =>
                let suffix := if idxNames.length != 0 then
                    " and into " ++ toString idxNames.length ++ " indices" else ""
                (Outcome.ok { column_names := none, rows := none,
                              message := "successfully inserted 1 row into " ++ t ++ suffix },
                 db2, evs)

/-- Embeds `SQLExec::del`: fail if the table has no `_tables` row; build a
TableScan plan wrapped in a Select when a WHERE clause exists, optimize,
obtain handles via `pipeline()`, and delete each from the base relation
(index entries are NOT removed - the FIXME in the source). -/
def del (st : DeleteStatement) (db0 : DbState) : ExecOut :=
  let t := st.tableName
  let w : Row := [("table_name", Value.VText t)]
  if (db0.tablesRel.select w).isEmpty then
    (Outcome.err (DbError.sql (SqlErr.deleteNonexistentTable t)), db0, [])
  else
    let rel := relSnapshot db0 t
    let base := EvalPlan.TableScan rel
    let planE : Except DbError EvalPlan :=
      match st.expr with
      | none => Except.ok base
      | some e =>
          match get_where_conjunction e [] with
          | Except.error err => Except.error err
          | Except.ok conj => Except.ok (EvalPlan.ScanSelect conj base)
    match planE with
    | Except.error e => (Outcome.err e, db0, [])
    | Except.ok plan =>
        let plan1 := plan.optimize
        let handles := plan1.pipeline
        let db1 := setRel db0 t (rel.delAll handles)
        (Outcome.ok { column_names := none, rows := none,
                      message := "successfully deleted " ++ toString handles.length ++ " rows" },
         db1, handles.map (Event.delUser t))

/-- Embeds `SQLExec::select`: fail if the table has no `_tables` row;
resolve the projected column list (`*` expands to the full schema
order); build TableScan, optional Select, and Project; optimize,
evaluate, and return the materialized rows with their column names. -/
def select (st : SelectStatement) (db0 : DbState) : ExecOut :=
  let t := st.fromTable
  let w : Row := [("table_name", Value.VText t)]
  if (db0.tablesRel.select w).isEmpty then
    (Outcome.err (DbError.sql (SqlErr.selectNonexistentTable t)), db0, [])
  else
    let rel := relSnapshot db0 t
    let cn := st.selectList.foldl
      (fun acc e =>
        match e with
        | Expr.star => acc ++ tableColumnNames db0 t
        | e => acc ++ [e.exprName]) []
    let base := EvalPlan.TableScan rel
    let planE : Except DbError EvalPlan :=
      match st.whereClause with
      | none => Except.ok base
      | some e =>
          match get_where_conjunction e [] with
          | Except.error err => Except.error err
          | Except.ok conj => Except.ok (EvalPlan.ScanSelect conj base)
    match planE with
    | Except.error e => (Outcome.err e, db0, [])
    | Except.ok plan =>
        let plan1 := (EvalPlan.Project cn plan).optimize
        let rows := plan1.evaluate
        (Outcome.ok { column_names := some cn, rows := some rows,
                      message := "successfully return " ++ toString rows.length ++ " rows" },
         db0, [])

/-- Embeds the row-collecting loop of `SQLExec::show_tables`: project
every `_tables` row to the `_tables` schema and push it unless its table
name is one of the three protected schema-table names. -/
def show_tables_loop (db : DbState) : List Row :=
  db.tablesRel.selectAll.foldl
    (fun acc h =>
      if ((fun row => (rowFindD row "table_name").getS ≠ tablesName ∧
            (rowFindD row "table_name").getS ≠ columnsName ∧
            (rowFindD row "table_name").getS ≠ indicesName)
          ((fun h2 => rowRestrict (db.tablesRel.project h2)
            (tableColumnNames db tablesName)) h))
      then acc ++ [(fun h2 => rowRestrict (db.tablesRel.project h2)
            (tableColumnNames db tablesName)) h]
      else acc) []

/-- Embeds `SQLExec::show_tables`: read the `_tables` schema via
`get_columns`, project every `_tables` row to it, and keep the rows
whose table name is none of the three protected schema-table names. -/
def show_tables (db : DbState) : ExecOut :=
  let cn := tableColumnNames db tablesName
  let rows := show_tables_loop db
  (Outcome.ok { column_names := some cn, rows := some rows,
                message := "successfully returned " ++ toString rows.length ++ " rows" },
   db, [])

/-- Embeds `SQLExec::show_columns`: with a table named, project the
`_columns` rows selected by that table name to (table_name, column_name,
data_type); with no table named the source selects from `_tables`
(`tables->select()`), not `_columns`, and projects those rows to the
same three column names. -/
def show_columns (st : ShowStatement) (db : DbState) : ExecOut :=
  let cn : List Identifier := ["table_name", "column_name", "data_type"]
  match st.tableName with
  | some t =>
      let w : Row := [("table_name", Value.VText t)]
      let hs := db.columnsRel.select w
      let data := hs.map (fun h => rowRestrict (db.columnsRel.project h) cn)
      (Outcome.ok { column_names := some cn, rows := some data,
                    message := "successfully returned " ++ toString data.length ++ " rows" },
       db, [])
  | none =>
      let hs := db.tablesRel.selectAll
      let data := hs.map (fun h => rowRestrict (db.tablesRel.project h) cn)
      (Outcome.ok { column_names := some cn, rows := some data,
                    message := "successfully returned " ++ toString data.length ++ " rows" },
       db, [])

/-- Embeds `SQLExec::show_index`: read the `_indices` schema via
`get_columns`, then fully project every `_indices` row whose table name
matches (dereferencing the null table name is undefined). -/
def show_index (st : ShowStatement) (db : DbState) : ExecOut :=
  match st.tableName with
  | none => (Outcome.undef, db, [])
  | some t =>
      let cn := tableColumnNames db indicesName
      let w : Row := [("table_name", Value.VText t)]
      let hs := db.indicesRel.select w
      let rows := hs.map (fun h => db.indicesRel.project h)
      (Outcome.ok { column_names := some cn, rows := some rows,
                    message := "successfully returned " ++ toString hs.length ++ " rows" },
       db, [])

/-- Embeds `SQLExec::show` (`show` is reserved in Lean): dispatch on the
SHOW statement type. -/
def showStmt (st : ShowStatement) (db : DbState) : ExecOut :=
  match st.type with
  | ShowType.kTables => show_tables db
  | ShowType.kColumns => show_columns st db
  | ShowType.kIndex => show_index st db

/-- Embeds `SQLExec::create`: dispatch on the CREATE statement type. -/
def create (f : Faults) (st : CreateStatement) (db : DbState) : ExecOut :=
  match st.type with
  | CreateType.kTable => create_table f st db
  | CreateType.kIndex => create_index st db

/-- Embeds `SQLExec::drop`: dispatch on the DROP statement type. -/
def drop (st : DropStatement) (db : DbState) : ExecOut :=
  match st.type with
  | DropEntity.kTable => drop_table st db
  | DropEntity.kIndex => drop_index st db

/-- Embeds the catch block of `SQLExec::execute`: an escaping
`DbRelationError` is rewrapped as
`SQLExecError("DbRelationError: " + what)`. -/
def wrapRelationError (r : ExecOut) : ExecOut :=
  match r with
  | (Outcome.err (DbError.relation m), db1, evs) =>
      (Outcome.err (DbError.sql (SqlErr.relationWrapped m)), db1, evs)
  | other => other

/-- Embeds `SQLExec::execute`: dispatch on the statement kind (unknown
kinds return a "not implemented" result), rewrapping any escaping
`DbRelationError`. -/
def execute (f : Faults) (s : SQLStatement) (db : DbState) : ExecOut :=
  wrapRelationError
    (match s with
     | SQLStatement.create st => create f st db
     | SQLStatement.drop st => drop st db
     | SQLStatement.show st => showStmt st db
     | SQLStatement.insert st => insert st db
     | SQLStatement.delete st => del st db
     | SQLStatement.select st => select st db
     | SQLStatement.unknown =>
         (Outcome.ok { column_names := none, rows := none, message := "not implemented" },
          db, []))

end SQLExec

/-- The exact syntactic condition under which `get_where_conjunction`
raises "unrecognized expression": somewhere at the root or under AND
nodes there is a `SIMPLE_OP` node with `opChar == '='` whose right
operand is neither an integer nor a string literal. -/
def hasBadEq : Expr → Bool
  | Expr.binop OperatorType.AND _ l r => hasBadEq l || hasBadEq r
  | Expr.binop OperatorType.SIMPLE_OP c _ r =>
      c == '=' &&
        (match r with
         | Expr.litInt _ => false
         | Expr.litString _ => false
         | _ => true)
  | _ => false

/-- Modelled from the spec: the WHERE-clause shape the spec declares
supported - "a conjunction (via AND nodes) of column = integer-or-string
-literal equalities" (spec section 4.4).  Used only to state the claim
about unsupported shapes; the executor's own behavior is
`get_where_conjunction`. -/
def specConjunctionShape : Expr → Bool
  | Expr.binop OperatorType.AND _ l r => specConjunctionShape l && specConjunctionShape r
  | Expr.binop OperatorType.SIMPLE_OP c l r =>
      c == '=' &&
        (match l with
         | Expr.colRef _ => true
         | _ => false) &&
        (match r with
         | Expr.litInt _ => true
         | Expr.litString _ => true
         | _ => false)
  | _ => false

/-- The three protected system relation names. -/
def protectedTable (t : Identifier) : Prop :=
  t = tablesName ∨ t = columnsName ∨ t = indicesName

instance (t : Identifier) : Decidable (protectedTable t) := by
  unfold protectedTable; infer_instance

/-- The `where` conjunction identifying one (table_name, index_name)
group of `_indices` rows. -/
def groupWhere (t i : Identifier) : Row :=
  [("table_name", Value.VText t), ("index_name", Value.VText i)]

/-- The `_indices` rows of one (table_name, index_name) group, in stored
order. -/
def groupRows (db : DbState) (t i : Identifier) : List Row :=
  (db.indicesRel.rows.filter (fun p => rowMatches (groupWhere t i) p.2)).map
    (fun p => p.2)

/-- Whether the physical index structure for (t, i) exists. -/
def physIdxHas (db : DbState) (t i : Identifier) : Prop :=
  (lookupIdx db t i).isSome = true

instance (db : DbState) (t i : Identifier) : Decidable (physIdxHas db t i) := by
  unfold physIdxHas; infer_instance

/-- The `seq_in_index` values of a row group form the contiguous ascending
sequence 1, 2, ..., n. -/
def seqContiguous (l : List Row) : Prop :=
  l.map (fun r => (rowFindD r "seq_in_index").getN) =
    (List.range l.length).map (fun (n : Nat) => (n : Int) + 1)

/-- `index_type` and `is_unique` agree across all rows of a group. -/
def groupConstant (l : List Row) : Prop :=
  ∀ r1 ∈ l, ∀ r2 ∈ l,
    rowFindD r1 "index_type" = rowFindD r2 "index_type" ∧
    rowFindD r1 "is_unique" = rowFindD r2 "is_unique"

/-- The `_indices` consistency invariant: the relation is well formed,
and within every (table_name, index_name) group the `seq_in_index`
values are contiguous from 1, `index_type`/`is_unique` are constant,
and a nonempty group has its physical index structure. -/
def IndicesInv (db : DbState) : Prop :=
  db.indicesRel.wf ∧
  ∀ t i, seqContiguous (groupRows db t i) ∧ groupConstant (groupRows db t i) ∧
    (groupRows db t i ≠ [] → physIdxHas db t i)

/-! ### Concrete fixtures used by witnesses and counterexamples -/

/-- The empty bootstrap database. -/
def dbEmpty : DbState :=
  { tablesRel := StoredRel.empty, columnsRel := StoredRel.empty,
    indicesRel := StoredRel.empty, userRels := [], physIdx := [] }

/-- `CREATE TABLE goober (x INT, y INT, z INT)`. -/
def ctGoober : CreateStatement :=
  { type := CreateType.kTable, tableName := "goober",
    columns := [{ name := "x", type := HsqlColType.INT },
                { name := "y", type := HsqlColType.INT },
                { name := "z", type := HsqlColType.INT }],
    ifNotExists := false, indexName := "", indexType := "", indexColumns := [] }

/-- The database state after `CREATE TABLE goober (x INT, y INT, z INT)`
succeeds on the empty database. -/
def dbGoober : DbState := (SQLExec.create_table noFaults ctGoober dbEmpty).2.1

/-- `CREATE TABLE bad (x DOUBLE)` - an unsupported column type, so the
statement fails after the `_tables` insert. -/
def ctBad : CreateStatement :=
  { type := CreateType.kTable, tableName := "bad",
    columns := [{ name := "x", type := HsqlColType.DOUBLE }],
    ifNotExists := false, indexName := "", indexType := "", indexColumns := [] }

/-- `CREATE INDEX fx ON goober (x, y) USING BTREE`. -/
def cixFx : CreateStatement :=
  { type := CreateType.kIndex, tableName := "goober",
    columns := [], ifNotExists := false,
    indexName := "fx", indexType := "BTREE", indexColumns := ["x", "y"] }

/-- `WHERE x < 5`: a `SIMPLE_OP` comparison that is not `=`. -/
def whereLt : Expr :=
  Expr.binop OperatorType.SIMPLE_OP '<' (Expr.colRef "x") (Expr.litInt 5)

/-- `CREATE INDEX fw ON goober (x, w)` - column `w` does not exist. -/
def cixBadCol : CreateStatement :=
  { type := CreateType.kIndex, tableName := "goober",
    columns := [], ifNotExists := false,
    indexName := "fw", indexType := "BTREE", indexColumns := ["x", "w"] }

/-- The rows SHOW TABLES is specified to return: every `_tables` row,
projected to the `_tables` schema, whose table name is not one of the
three protected system relation names. -/
def showTablesExpected (db : DbState) : List Row :=
  (db.tablesRel.rows.map
      (fun p => rowRestrict p.2 (tableColumnNames db tablesName))).filter
    (fun row => decide (¬ protectedTable (rowFindD row "table_name").getS))

/-- Whether an `hsql` expression is an integer or string literal (the two
value forms INSERT accepts). -/
def isLiteralExpr : Expr → Bool
  | Expr.litInt _ => true
  | Expr.litString _ => true
  | _ => false

/-- A bootstrap database whose `_columns` relation holds the schema row of
`_tables` (the catalogs' self-description, spec section 4.3). -/
def dbBoot : DbState :=
  { tablesRel := StoredRel.empty,
    columnsRel :=
      { rows := [(0, [("table_name", Value.VText "_tables"),
                      ("column_name", Value.VText "table_name"),
                      ("data_type", Value.VText "TEXT")])],
        nextHandle := 1 },
    indicesRel := StoredRel.empty, userRels := [], physIdx := [] }

/-! ### Lemmas about the stored-relation model -/

theorem StoredRel.delAll_cons (r : StoredRel) (h : Nat) (hs : List Nat) :
    r.delAll (h :: hs) = (r.del h).delAll hs := rfl

theorem StoredRel.delAll_rows (hs : List Nat) (r : StoredRel) :
    (r.delAll hs).rows = r.rows.filter (fun p => !(hs.contains p.1)) := by
  induction hs generalizing r with
  | nil => simp [StoredRel.delAll]
  | cons h t ih =>
      rw [StoredRel.delAll_cons, ih]
      show (r.rows.filter (fun p => p.1 != h)).filter _ = _
      rw [List.filter_filter]
      apply List.filter_congr
      intro x _
      simp only [List.contains_cons, Bool.not_or, bne]
      exact Bool.and_comm _ _

theorem StoredRel.delAll_nextHandle (hs : List Nat) (r : StoredRel) :
    (r.delAll hs).nextHandle = r.nextHandle := by
  induction hs generalizing r with
  | nil => rfl
  | cons h t ih => rw [StoredRel.delAll_cons, ih]; rfl

theorem StoredRel.mem_select {r : StoredRel} {w : Row} {h : Nat} :
    h ∈ r.select w ↔ ∃ p ∈ r.rows, p.1 = h ∧ rowMatches w p.2 = true := by
  simp only [StoredRel.select, List.mem_map, List.mem_filter]
  constructor
  · rintro ⟨p, ⟨hmem, hmatch⟩, rfl⟩
    exact ⟨p, hmem, rfl, hmatch⟩
  · rintro ⟨p, hmem, rfl, hmatch⟩
    exact ⟨p, ⟨hmem, hmatch⟩, rfl⟩

theorem StoredRel.select_eq_nil_iff {r : StoredRel} {w : Row} :
    r.select w = [] ↔ ∀ p ∈ r.rows, rowMatches w p.2 = false := by
  simp only [StoredRel.select, List.map_eq_nil_iff, List.filter_eq_nil_iff]
  constructor
  · intro hall p hp
    exact Bool.eq_false_iff.mpr (hall p hp)
  · intro hall p hp
    exact Bool.eq_false_iff.mp (hall p hp)

theorem StoredRel.wf_empty : StoredRel.empty.wf := by
  constructor
  · intro p hp; simp [StoredRel.empty] at hp
  · simp [StoredRel.empty]

theorem StoredRel.wf_insert {r : StoredRel} (row : Row) (hw : r.wf) :
    (r.insert row).2.wf := by
  obtain ⟨hb, hp⟩ := hw
  constructor
  · intro p hpmem
    simp only [StoredRel.insert, List.mem_append, List.mem_singleton] at hpmem
    rcases hpmem with hin | rfl
    · exact Nat.lt_succ_of_lt (hb p hin)
    · exact Nat.lt_succ_self _
  · simp only [StoredRel.insert]
    rw [List.pairwise_append]
    refine ⟨hp, by simp, ?_⟩
    intro a ha b hb2
    simp only [List.mem_singleton] at hb2
    subst hb2
    exact Nat.ne_of_lt (hb a ha)

theorem StoredRel.wf_del {r : StoredRel} (h : Nat) (hw : r.wf) : (r.del h).wf := by
  obtain ⟨hb, hp⟩ := hw
  constructor
  · intro p hpmem
    exact hb p (List.mem_of_mem_filter hpmem)
  · exact List.Pairwise.sublist (List.filter_sublist r.rows) hp

theorem StoredRel.wf_delAll {r : StoredRel} (hs : List Nat) (hw : r.wf) :
    (r.delAll hs).wf := by
  induction hs generalizing r with
  | nil => exact hw
  | cons h t ih => exact ih (r.wf_del h hw)

theorem StoredRel.delAll_select_rows {r : StoredRel} {w : Row} (hw : r.wf) :
    (r.delAll (r.select w)).rows = r.rows.filter (fun p => !(rowMatches w p.2)) := by
  rw [StoredRel.delAll_rows]
  apply List.filter_congr
  intro p hp
  congr 1
  rcases hmatch : rowMatches w p.2 with _ | _
  · rcases hcont : (r.select w).contains p.1 with _ | _
    · rfl
    · exfalso
      have hmem : p.1 ∈ r.select w := by
        simpa using hcont
      obtain ⟨q, hq, hq1, hqm⟩ := StoredRel.mem_select.mp hmem
      have : q = p := by
        by_contra hne
        exact (hw.2.forall (fun a b hab => (Ne.symm hab)) hq hp hne) hq1
      rw [this] at hqm
      rw [hqm] at hmatch
      simp at hmatch
  · have hmem : p.1 ∈ r.select w := StoredRel.mem_select.mpr ⟨p, hp, rfl, hmatch⟩
    simpa using hmem

theorem StoredRel.delAll_select_no_match {r : StoredRel} {w : Row} (hw : r.wf) :
    ∀ p ∈ (r.delAll (r.select w)).rows, rowMatches w p.2 = false := by
  rw [StoredRel.delAll_select_rows hw]
  intro p hp
  have := (List.mem_filter.mp hp).2
  simpa using this

/-! ### Lemmas about rows -/

theorem rowFind_set_self (r : Row) (k : Identifier) (v : Value) :
    rowFind (rowSet r k v) k = some v := by
  induction r with
  | nil => simp [rowSet, rowFind]
  | cons p rest ih =>
      by_cases h : p.1 = k
      · simp [rowSet, rowFind, h]
      · simp [rowSet, rowFind, h, ih]

theorem rowFind_set_ne (r : Row) {k k' : Identifier} (v : Value) (h : k' ≠ k) :
    rowFind (rowSet r k v) k' = rowFind r k' := by
  induction r with
  | nil => simp [rowSet, rowFind, Ne.symm h]
  | cons p rest ih =>
      by_cases h1 : p.1 = k
      · subst h1
        simp [rowSet, rowFind, Ne.symm h]
      · by_cases h2 : p.1 = k'
        · simp [rowSet, rowFind, h1, h2, h]
        · simp [rowSet, rowFind, h1, h2, ih]

/-! ### Restoration lemmas for the compensating deletes -/

theorem delAll_restore (old nr : List (Nat × Row)) (nh n0 : Nat) (hs : List Nat)
    (hold : ∀ p ∈ old, p.1 < n0)
    (hhs : hs = nr.map Prod.fst)
    (hge : ∀ h ∈ hs, n0 ≤ h) :
    (StoredRel.delAll { rows := old ++ nr, nextHandle := nh } hs).rows = old := by
  rw [StoredRel.delAll_rows]
  show (old ++ nr).filter _ = old
  rw [List.filter_append]
  have h1 : old.filter (fun p => !(hs.contains p.1)) = old := by
    apply List.filter_eq_self.mpr
    intro p hp
    have : p.1 ∉ hs := by
      intro hmem
      exact absurd (hold p hp) (Nat.not_lt_of_le (hge p.1 hmem))
    simpa using this
  have h2 : nr.filter (fun p => !(hs.contains p.1)) = [] := by
    apply List.filter_eq_nil_iff.mpr
    intro p hp
    have : p.1 ∈ hs := by
      rw [hhs]
      exact List.mem_map_of_mem Prod.fst hp
    simp [this]
  rw [h1, h2, List.append_nil]

/-! ### Characterization of the CREATE TABLE column-insert loop -/

theorem insertColumnRows_spec (tname : Identifier) (f : Faults) :
    ∀ (cols : List ColumnDefinition) (i : Nat) (db : DbState) (hs : List Nat)
      (evs : List Event),
    ∃ nr : List (Nat × Row),
      (SQLExec.insertColumnRows tname f cols i db hs evs).1 =
        { db with columnsRel := { rows := db.columnsRel.rows ++ nr,
                                  nextHandle := db.columnsRel.nextHandle + nr.length } } ∧
      (SQLExec.insertColumnRows tname f cols i db hs evs).2.1 = hs ++ nr.map Prod.fst ∧
      nr.map Prod.fst = List.range' db.columnsRel.nextHandle nr.length ∧
      (SQLExec.insertColumnRows tname f cols i db hs evs).2.2.1 =
        evs ++ (nr.map Prod.fst).map Event.insColumns ∧
      ∀ q ∈ nr, rowFind q.2 "table_name" = some (Value.VText tname) := by
  intro cols
  induction cols with
  | nil =>
      intro i db hs evs
      refine ⟨[], ?_, by simp [SQLExec.insertColumnRows], by simp,
              by simp [SQLExec.insertColumnRows], by simp⟩
      simp [SQLExec.insertColumnRows]
  | cons c rest ih =>
      intro i db hs evs
      rcases hcd : SQLExec.column_definition c with e | cnca
      · refine ⟨[], ?_, ?_, ?_, ?_, ?_⟩ <;> simp [SQLExec.insertColumnRows, hcd]
      · obtain ⟨cn, ca⟩ := cnca
        rcases hf : f.colInsertFault i with _ | m
        case some =>
          refine ⟨[], ?_, ?_, ?_, ?_, ?_⟩ <;> simp [SQLExec.insertColumnRows, hcd, hf]
        case none =>
          set n0 := db.columnsRel.nextHandle with hn0
          set ty := if ca = DataType.TEXT then "TEXT" else "INT" with hty
          set row : Row := [("table_name", Value.VText tname),
                            ("column_name", Value.VText cn),
                            ("data_type", Value.VText ty)] with hrow
          set db' : DbState :=
            { db with columnsRel := (db.columnsRel.insert row).2 } with hdb'
          have hunfold :
              SQLExec.insertColumnRows tname f (c :: rest) i db hs evs =
              SQLExec.insertColumnRows tname f rest (i + 1) db' (hs ++ [n0])
                (evs ++ [Event.insColumns n0]) := by
            simp [SQLExec.insertColumnRows, hcd, hf, StoredRel.insert, hdb', hrow, hty, hn0]
          obtain ⟨nr', h1, h2, h3, h4, h5⟩ :=
            ih (i + 1) db' (hs ++ [n0]) (evs ++ [Event.insColumns n0])
          have hrows' : db'.columnsRel.rows = db.columnsRel.rows ++ [(n0, row)] := rfl
          have hnh' : db'.columnsRel.nextHandle = n0 + 1 := rfl
          refine ⟨(n0, row) :: nr', ?_, ?_, ?_, ?_, ?_⟩
          · rw [hunfold, h1, hrows', hnh']
            simp [Nat.add_comm, Nat.add_assoc, Nat.add_left_comm]
          · rw [hunfold, h2]
            simp
          · show n0 :: nr'.map Prod.fst = List.range' n0 (nr'.length + 1)
            rw [List.range'_succ, h3, hnh']
          · rw [hunfold, h4]
            simp
          · intro q hq
            rcases List.mem_cons.mp hq with rfl | hq'
            · simp [hrow, rowFind]
            · exact h5 q hq'

theorem del_append_new (old : List (Nat × Row)) (row : Row) (n nh : Nat)
    (hold : ∀ p ∈ old, p.1 < n) :
    (StoredRel.del { rows := old ++ [(n, row)], nextHandle := nh } n).rows = old := by
  show (old ++ [(n, row)]).filter _ = old
  rw [List.filter_append]
  have h1 : old.filter (fun p => p.1 != n) = old := by
    apply List.filter_eq_self.mpr
    intro p hp
    simpa using Nat.ne_of_lt (hold p hp)
  have h2 : List.filter (fun p => p.1 != n) [((n : Nat), row)] = [] := by simp
  rw [h1, h2, List.append_nil]

theorem insertColumnRows_err (tname : Identifier) (f : Faults) :
    ∀ (cols : List ColumnDefinition) (i : Nat) (db : DbState) (hs : List Nat)
      (evs : List Event),
    ((∃ j, j < cols.length ∧ f.colInsertFault (i + j) ≠ none) ∨
      ∃ c ∈ cols, c.type = HsqlColType.DOUBLE) →
    (SQLExec.insertColumnRows tname f cols i db hs evs).2.2.2 ≠ none := by
  intro cols
  induction cols with
  | nil =>
      intro i db hs evs hcond
      rcases hcond with ⟨j, hj, _⟩ | ⟨c, hc, _⟩
      · exact absurd hj (Nat.not_lt_zero j)
      · exact absurd hc (List.not_mem_nil c)
  | cons c rest ih =>
      intro i db hs evs hcond
      rcases hcd : SQLExec.column_definition c with e | cnca
      · simp [SQLExec.insertColumnRows, hcd]
      · obtain ⟨cn, ca⟩ := cnca
        have hcnotd : c.type ≠ HsqlColType.DOUBLE := by
          intro hd
          rw [SQLExec.column_definition, hd] at hcd
          exact Except.noConfusion hcd
        rcases hf : f.colInsertFault i with _ | m
        case some => simp [SQLExec.insertColumnRows, hcd, hf]
        case none =>
          have hnext :
              (∃ j, j < rest.length ∧ f.colInsertFault (i + 1 + j) ≠ none) ∨
              ∃ c2 ∈ rest, c2.type = HsqlColType.DOUBLE := by
            rcases hcond with ⟨j, hj, hfj⟩ | ⟨c2, hc2, hd2⟩
            · rcases j with _ | j'
              · exact absurd hf (by simpa using hfj)
              · refine Or.inl ⟨j', by simp at hj; omega, ?_⟩
                have : i + 1 + j' = i + (j' + 1) := by omega
                rw [this]
                exact hfj
            · rcases List.mem_cons.mp hc2 with rfl | hmem
              · exact absurd hd2 hcnotd
              · exact Or.inr ⟨c2, hmem, hd2⟩
          have := ih (i + 1)
            { db with columnsRel := (db.columnsRel.insert
                [("table_name", Value.VText tname), ("column_name", Value.VText cn),
                 ("data_type", Value.VText (if ca = DataType.TEXT then "TEXT" else "INT"))]).2 }
            (hs ++ [db.columnsRel.nextHandle])
            (evs ++ [Event.insColumns db.columnsRel.nextHandle]) hnext
          simpa [SQLExec.insertColumnRows, hcd, hf] using this

/-- Claim C1: for every CREATE TABLE statement, if any step after the
insertion of the new table's row into `_tables` fails (a `_columns`
insert, an unsupported column type, or the physical create), the
executor deletes every `_columns` row it inserted for this statement and
then deletes the `_tables` row - the trace ends with the `_columns`
deletes followed by the `_tables` delete - restoring both relations' row
contents (hence row counts) to their pre-statement values, and re-raises
the original failure (the statement's outcome is that error); moreover
whenever such a later step must fail (an injected `_columns` insert
fault, a non-INT/TEXT column type, or a physical-name conflict without
IF NOT EXISTS), the statement does end in an error. -/
theorem create_table_rollback_restores (f : Faults) (st : CreateStatement)
    (db : DbState) (hwt : db.tablesRel.wf) (hwc : db.columnsRel.wf)
    (hf : f.tablesInsertFault = none) :
    (∀ e, (SQLExec.create_table f st db).1 = Outcome.err e →
      (SQLExec.create_table f st db).2.1.tablesRel.rows = db.tablesRel.rows ∧
      (SQLExec.create_table f st db).2.1.columnsRel.rows = db.columnsRel.rows ∧
      ∃ (th : Nat) (chs : List Nat),
        (SQLExec.create_table f st db).2.2 =
          [Event.insTables th] ++ chs.map Event.insColumns ++
            chs.map Event.delColumns ++ [Event.delTables th]) ∧
    (((∃ j, j < st.columns.length ∧ f.colInsertFault j ≠ none) ∨
      (∃ c ∈ st.columns, c.type = HsqlColType.DOUBLE) ∨
      (st.ifNotExists = false ∧ (lookupRel db st.tableName).isSome)) →
      ∃ e, (SQLExec.create_table f st db).1 = Outcome.err e) := by
  obtain ⟨nr, h1, h2, h3, h4, h5⟩ :=
    insertColumnRows_spec st.tableName f st.columns 0
      { db with tablesRel :=
          (db.tablesRel.insert [("table_name", Value.VText st.tableName)]).2 } [] []
  rcases hicr : SQLExec.insertColumnRows st.tableName f st.columns 0
      { db with tablesRel :=
          (db.tablesRel.insert [("table_name", Value.VText st.tableName)]).2 } [] []
    with ⟨db2, colHs, evs, errOpt⟩
  rw [hicr] at h1 h2 h4
  simp only at h1 h2 h3 h4
  have htab2 : db2.tablesRel =
      (db.tablesRel.insert [("table_name", Value.VText st.tableName)]).2 := by rw [h1]
  have hcols2 : db2.columnsRel =
      { rows := db.columnsRel.rows ++ nr,
        nextHandle := db.columnsRel.nextHandle + nr.length } := by rw [h1]
  have husers2 : db2.userRels = db.userRels := by rw [h1]
  have hrestore : ∀ e,
      (SQLExec.rollbackCreateTable db2 colHs db.tablesRel.nextHandle
        ([Event.insTables db.tablesRel.nextHandle] ++ evs) e).2.1.tablesRel.rows
        = db.tablesRel.rows ∧
      (SQLExec.rollbackCreateTable db2 colHs db.tablesRel.nextHandle
        ([Event.insTables db.tablesRel.nextHandle] ++ evs) e).2.1.columnsRel.rows
        = db.columnsRel.rows ∧
      (SQLExec.rollbackCreateTable db2 colHs db.tablesRel.nextHandle
        ([Event.insTables db.tablesRel.nextHandle] ++ evs) e).2.2 =
        [Event.insTables db.tablesRel.nextHandle] ++
          (nr.map Prod.fst).map Event.insColumns ++
          (nr.map Prod.fst).map Event.delColumns ++
          [Event.delTables db.tablesRel.nextHandle] := by
    intro e
    refine ⟨?_, ?_, ?_⟩
    · show ((db2.columnsRel.delAll colHs) , db2.tablesRel.del db.tablesRel.nextHandle).2.rows
        = db.tablesRel.rows
      rw [htab2]
      exact del_append_new db.tablesRel.rows _ db.tablesRel.nextHandle _ hwt.1
    · show (db2.columnsRel.delAll colHs).rows = db.columnsRel.rows
      rw [hcols2]
      apply delAll_restore db.columnsRel.rows nr _ db.columnsRel.nextHandle colHs hwc.1
      · simpa using h2
      · intro h hmem
        rw [h2] at hmem
        simp only [List.nil_append] at hmem
        rw [h3] at hmem
        exact (List.mem_range'_1.mp hmem).1
    · show [Event.insTables db.tablesRel.nextHandle] ++ evs ++
          colHs.map Event.delColumns ++ [Event.delTables db.tablesRel.nextHandle] = _
      rw [h4, h2]
      simp
  simp only [SQLExec.create_table, hf]
  rw [hicr]
  constructor
  · intro e herr
    rcases errOpt with _ | e0
    · rcases hpc : physTableCreate st.tableName st.ifNotExists db2 with e1 | db3
      · simp only [hpc] at herr ⊢
        obtain ⟨ha, hb, hc⟩ := hrestore e1
        exact ⟨ha, hb, db.tablesRel.nextHandle, nr.map Prod.fst, hc⟩
      · simp only [hpc] at herr
        exact Outcome.noConfusion herr
    · simp only at herr ⊢
      obtain ⟨ha, hb, hc⟩ := hrestore e0
      exact ⟨ha, hb, db.tablesRel.nextHandle, nr.map Prod.fst, hc⟩
  · intro hcond
    rcases errOpt with _ | e0
    · rcases hcond with hfj | hdd | ⟨hine, hsome⟩
      · exact absurd (by rw [hicr])
          (insertColumnRows_err st.tableName f st.columns 0 _ [] []
            (Or.inl (by simpa using hfj)))
      · exact absurd (by rw [hicr])
          (insertColumnRows_err st.tableName f st.columns 0 _ [] [] (Or.inr hdd))
      · have hlook : (lookupRel db2 st.tableName).isSome := by
          unfold lookupRel
          rw [husers2]
          exact hsome
        rcases hl : lookupRel db2 st.tableName with _ | r
        · rw [hl] at hlook
          exact Bool.noConfusion hlook
        · refine ⟨DbError.relation (st.tableName ++ " already exists"), ?_⟩
          have hpc : physTableCreate st.tableName st.ifNotExists db2 =
              Except.error (DbError.relation (st.tableName ++ " already exists")) := by
            unfold physTableCreate
            rw [hl, hine]
            rfl
          simp only [hpc]
          rfl
    · refine ⟨e0, ?_⟩
      rfl

/-- Witness for C1: `CREATE TABLE bad (x DOUBLE)` on the empty database
fails after the `_tables` insert, and both catalog relations' rows are
restored. -/
theorem create_table_rollback_restores_witness :
    (SQLExec.create_table noFaults ctBad dbEmpty).2.1.tablesRel.rows =
        dbEmpty.tablesRel.rows ∧
    (SQLExec.create_table noFaults ctBad dbEmpty).2.1.columnsRel.rows =
        dbEmpty.columnsRel.rows ∧
    ∃ e, (SQLExec.create_table noFaults ctBad dbEmpty).1 = Outcome.err e := by
  have h := create_table_rollback_restores noFaults ctBad dbEmpty
    StoredRel.wf_empty StoredRel.wf_empty rfl
  have herr := h.2 (Or.inr (Or.inl ⟨{ name := "x", type := HsqlColType.DOUBLE },
    by decide, rfl⟩))
  obtain ⟨e, he⟩ := herr
  obtain ⟨h1, h2, _⟩ := h.1 e he
  exact ⟨h1, h2, e, he⟩

/-- Claim C2: for every DROP TABLE statement whose target name is one of
the three protected system relation names (`_tables`, `_columns`,
`_indices`), execution fails with the protected-object error
("Cannot drop a schema table!") and performs no catalog or storage
mutation: the returned state is exactly the input state and the trace is
empty. -/
theorem drop_table_protected_refused (st : DropStatement) (db : DbState)
    (ht : st.type = DropEntity.kTable) (hp : protectedTable st.name) :
    SQLExec.drop_table st db =
      (Outcome.err (DbError.sql SqlErr.cannotDropSchemaTable), db, []) := by
  unfold SQLExec.drop_table
  rw [ht]
  have : (st.name = tablesName ∨ st.name = columnsName ∨ st.name = indicesName) :=
    hp
  rw [if_pos this]

/-- Witness for C2: `DROP TABLE _tables` fails with the protected-object
error and leaves the state untouched. -/
theorem drop_table_protected_refused_witness :
    SQLExec.drop_table
        { type := DropEntity.kTable, name := "_tables", indexName := "" } dbGoober =
      (Outcome.err (DbError.sql SqlErr.cannotDropSchemaTable), dbGoober, []) :=
  drop_table_protected_refused
    { type := DropEntity.kTable, name := "_tables", indexName := "" } dbGoober rfl
    (Or.inl rfl)

/-! ### The WHERE-clause flattening -/

theorem gwc_spec : ∀ (e : Expr) (acc : Row),
    (hasBadEq e = true →
      get_where_conjunction e acc =
        Except.error (DbError.sql SqlErr.unrecognizedExpression)) ∧
    (hasBadEq e = false → ∃ d, get_where_conjunction e acc = Except.ok d) := by
  intro e
  induction e with
  | litInt n => intro acc; exact ⟨by simp [hasBadEq], fun _ => ⟨acc, rfl⟩⟩
  | litString s => intro acc; exact ⟨by simp [hasBadEq], fun _ => ⟨acc, rfl⟩⟩
  | colRef n => intro acc; exact ⟨by simp [hasBadEq], fun _ => ⟨acc, rfl⟩⟩
  | star => intro acc; exact ⟨by simp [hasBadEq], fun _ => ⟨acc, rfl⟩⟩
  | binop op c l r ihl ihr =>
      intro acc
      cases op with
      | AND =>
          constructor
          · intro hbad
            rcases hbl : hasBadEq l with _ | _
            · rcases hbr : hasBadEq r with _ | _
              · rw [hasBadEq, hbl, hbr] at hbad
                exact Bool.noConfusion hbad
              · obtain ⟨d, hd⟩ := (ihl acc).2 hbl
                show (match get_where_conjunction l acc with
                      | Except.error e => Except.error e
                      | Except.ok c2 => get_where_conjunction r c2) = _
                rw [hd]
                exact (ihr d).1 hbr
            · have herr := (ihl acc).1 hbl
              show (match get_where_conjunction l acc with
                    | Except.error e => Except.error e
                    | Except.ok c2 => get_where_conjunction r c2) = _
              rw [herr]
          · intro hgood
            rw [hasBadEq] at hgood
            rcases Bool.or_eq_false_iff.mp hgood with ⟨hbl, hbr⟩
            obtain ⟨d, hd⟩ := (ihl acc).2 hbl
            obtain ⟨d2, hd2⟩ := (ihr d).2 hbr
            refine ⟨d2, ?_⟩
            show (match get_where_conjunction l acc with
                  | Except.error e => Except.error e
                  | Except.ok c2 => get_where_conjunction r c2) = _
            rw [hd]
            exact hd2
      | SIMPLE_OP =>
          by_cases hc : c = '='
          · subst hc
            cases r with
            | litInt n =>
                refine ⟨fun hbad => ?_, fun _ => ⟨_, rfl⟩⟩
                simp [hasBadEq] at hbad
            | litString s =>
                refine ⟨fun hbad => ?_, fun _ => ⟨_, rfl⟩⟩
                simp [hasBadEq] at hbad
            | colRef n =>
                refine ⟨fun _ => rfl, fun hgood => ?_⟩
                simp [hasBadEq] at hgood
            | star =>
                refine ⟨fun _ => rfl, fun hgood => ?_⟩
                simp [hasBadEq] at hgood
            | binop a b c2 d2 =>
                refine ⟨fun _ => rfl, fun hgood => ?_⟩
                simp [hasBadEq] at hgood
          · have hbeq : (c == '=') = false := by simp [hc]
            have hbadf : hasBadEq (Expr.binop OperatorType.SIMPLE_OP c l r) = false := by
              cases r <;> simp [hasBadEq, hbeq]
            constructor
            · intro hbad
              rw [hbadf] at hbad
              exact Bool.noConfusion hbad
            · intro _
              refine ⟨acc, ?_⟩
              show (if c = '=' then _ else _) = _
              rw [if_neg hc]
      | NONE => exact ⟨by simp [hasBadEq], fun _ => ⟨acc, rfl⟩⟩
      | OR => exact ⟨by simp [hasBadEq], fun _ => ⟨acc, rfl⟩⟩

/-- Counterexample to C4 as stated: the expression `x < 5` is not a
conjunction of column = integer-or-string-literal equalities, yet plan
construction does NOT fail - `get_where_conjunction` silently ignores
the unsupported comparison and returns the empty conjunction. -/
theorem where_lt_silently_ignored :
    specConjunctionShape whereLt = false ∧
    get_where_conjunction whereLt [] = Except.ok [] :=
  ⟨rfl, rfl⟩

/-- Claim C4 (amended): plan construction fails with "unrecognized
expression" exactly when the WHERE expression contains, at the root or
under AND nodes, an `=` comparison whose right operand is neither an
integer nor a string literal; a leaf with any other operator or
structure is silently ignored - construction succeeds and the leaf
contributes no condition. -/
theorem get_where_conjunction_error_iff (e : Expr) (acc : Row) :
    (get_where_conjunction e acc =
        Except.error (DbError.sql SqlErr.unrecognizedExpression) ↔
      hasBadEq e = true) ∧
    (hasBadEq e = false → ∃ d, get_where_conjunction e acc = Except.ok d) := by
  refine ⟨⟨?_, (gwc_spec e acc).1⟩, (gwc_spec e acc).2⟩
  intro herr
  rcases hb : hasBadEq e with _ | _
  · obtain ⟨d, hd⟩ := (gwc_spec e acc).2 hb
    rw [hd] at herr
    exact Except.noConfusion herr
  · rfl

/-- Witness for C4 (amended) at the concrete expression `x < 5`: it has
no bad equality leaf, so construction succeeds. -/
theorem get_where_conjunction_error_iff_witness :
    ∃ d, get_where_conjunction whereLt [] = Except.ok d :=
  (get_where_conjunction_error_iff whereLt []).2 rfl

/-- Claim C6, divergence at the failing input (code bug): on the database
holding user table goober with three columns, SHOW COLUMNS with no
table named returns ONE row drawn from `_tables` (just a table_name
field), not the three `_columns` rows of every table - the source's
no-table branch selects from `_tables` (`tables->select()`),
contradicting its own comment "If no table specified, retrieve all
columns"; the named-table branch does read `_columns`. -/
theorem show_columns_no_table_reads_tables :
    (SQLExec.show_columns { type := ShowType.kColumns, tableName := none } dbGoober).1 =
      Outcome.ok { column_names := some ["table_name", "column_name", "data_type"],
                   rows := some [[("table_name", Value.VText "goober")]],
                   message := "successfully returned 1 rows" } ∧
    (getColumnRows dbGoober "goober").length = 3 ∧
    (SQLExec.show_columns { type := ShowType.kColumns, tableName := some "goober" }
        dbGoober).1 =
      Outcome.ok { column_names := some ["table_name", "column_name", "data_type"],
                   rows := some
                     [[("table_name", Value.VText "goober"),
                       ("column_name", Value.VText "x"),
                       ("data_type", Value.VText "INT")],
                      [("table_name", Value.VText "goober"),
                       ("column_name", Value.VText "y"),
                       ("data_type", Value.VText "INT")],
                      [("table_name", Value.VText "goober"),
                       ("column_name", Value.VText "z"),
                       ("data_type", Value.VText "INT")]],
                   message := "successfully returned 3 rows" } := by
  refine ⟨?_, ?_, ?_⟩ <;> rfl

/-- Claim C7: for every CREATE INDEX statement that names a column absent
from the target table's current schema, execution fails with the
"no such column" error before any catalog write - the returned state is
exactly the input state and the trace is empty, so zero `_indices` rows
are inserted. -/
theorem create_index_missing_column_no_write (st : CreateStatement) (db : DbState)
    (h : ∃ c ∈ st.indexColumns, c ∉ tableColumnNames db st.tableName) :
    ∃ c ∈ st.indexColumns, c ∉ tableColumnNames db st.tableName ∧
      SQLExec.create_index st db =
        (Outcome.err (DbError.sql (SqlErr.noSuchColumn c st.tableName)), db, []) := by
  have hsome :
      (st.indexColumns.find?
        (fun c => !((tableColumnNames db st.tableName).contains c))).isSome = true := by
    rw [List.find?_isSome]
    obtain ⟨c, hc, hnot⟩ := h
    exact ⟨c, hc, by simpa using hnot⟩
  rcases hfind : st.indexColumns.find?
      (fun c => !((tableColumnNames db st.tableName).contains c)) with _ | c
  · rw [hfind] at hsome
    exact Bool.noConfusion hsome
  · have hcmem := List.mem_of_find?_eq_some hfind
    have hcp := List.find?_some hfind
    refine ⟨c, hcmem, by simpa using hcp, ?_⟩
    simp only [SQLExec.create_index]
    rw [hfind]

/-- Witness for C7: `CREATE INDEX fw ON goober (x, w)` on the goober
database fails with "no such column" and inserts nothing. -/
theorem create_index_missing_column_no_write_witness :
    ∃ c ∈ cixBadCol.indexColumns,
      c ∉ tableColumnNames dbGoober cixBadCol.tableName ∧
      SQLExec.create_index cixBadCol dbGoober =
        (Outcome.err (DbError.sql (SqlErr.noSuchColumn c cixBadCol.tableName)),
         dbGoober, []) :=
  create_index_missing_column_no_write cixBadCol dbGoober
    ⟨"w", by decide, by decide⟩

/-! ### SHOW TABLES -/

theorem foldl_keep {α β : Type} (p : β → Prop) [DecidablePred p] (f : α → β) :
    ∀ (l : List α) (acc : List β),
      l.foldl (fun acc2 h => if p (f h) then acc2 ++ [f h] else acc2) acc =
        acc ++ (l.map f).filter (fun b => decide (p b)) := by
  intro l
  induction l with
  | nil => intro acc; simp
  | cons x xs ih =>
      intro acc
      show xs.foldl _ (if p (f x) then acc ++ [f x] else acc) = _
      by_cases hx : p (f x)
      · rw [if_pos hx, ih]
        simp [hx]
      · rw [if_neg hx, ih]
        simp [hx]

theorem StoredRel.project_of_mem {r : StoredRel} (hw : r.wf) {p : Nat × Row}
    (hp : p ∈ r.rows) : r.project p.1 = p.2 := by
  unfold StoredRel.project
  rcases hfind : r.rows.find? (fun q => q.1 == p.1) with _ | q
  · have := List.find?_eq_none.mp hfind p hp
    simp at this
  · have hq := List.find?_some hfind
    have hqmem := List.mem_of_find?_eq_some hfind
    have hqp : q = p := by
      by_contra hne
      have hne1 := hw.2.forall (fun a b hab => Ne.symm hab) hqmem hp hne
      simp only [beq_iff_eq] at hq
      exact hne1 hq
    rw [hfind, hqp]

theorem show_tables_loop_eq (db : DbState) (hw : db.tablesRel.wf) :
    SQLExec.show_tables_loop db = showTablesExpected db := by
  unfold SQLExec.show_tables_loop
  rw [foldl_keep
    (fun row => (rowFindD row "table_name").getS ≠ tablesName ∧
      (rowFindD row "table_name").getS ≠ columnsName ∧
      (rowFindD row "table_name").getS ≠ indicesName)
    (fun h => rowRestrict (db.tablesRel.project h) (tableColumnNames db tablesName))]
  rw [List.nil_append]
  unfold showTablesExpected
  have hmap :
      db.tablesRel.selectAll.map
        (fun h => rowRestrict (db.tablesRel.project h) (tableColumnNames db tablesName)) =
      db.tablesRel.rows.map
        (fun p => rowRestrict p.2 (tableColumnNames db tablesName)) := by
    unfold StoredRel.selectAll
    rw [List.map_map]
    apply List.map_congr_left
    intro p hp
    show rowRestrict (db.tablesRel.project p.1) _ = _
    rw [StoredRel.project_of_mem hw hp]
  rw [hmap]
  apply List.filter_congr
  intro row _
  apply decide_eq_decide.mpr
  unfold protectedTable
  tauto

theorem show_tables_rows_eq (db : DbState) (hw : db.tablesRel.wf)
    (hcn : tableColumnNames db tablesName = ["table_name"]) :
    (SQLExec.show_tables db).1 =
      Outcome.ok { column_names := some ["table_name"],
                   rows := some (showTablesExpected db),
                   message := "successfully returned " ++
                     toString (showTablesExpected db).length ++ " rows" } := by
  have h0 : (SQLExec.show_tables db).1 =
      Outcome.ok { column_names := some (tableColumnNames db tablesName),
                   rows := some (SQLExec.show_tables_loop db),
                   message := "successfully returned " ++
                     toString (SQLExec.show_tables_loop db).length ++ " rows" } := rfl
  rw [h0, hcn, show_tables_loop_eq db hw]

theorem physTableCreate_ok_fields (t : Identifier) (b : Bool) (db db' : DbState)
    (h : physTableCreate t b db = Except.ok db') :
    db'.tablesRel = db.tablesRel ∧ db'.columnsRel = db.columnsRel ∧
    db'.indicesRel = db.indicesRel ∧ db'.physIdx = db.physIdx := by
  unfold physTableCreate at h
  rcases hl : lookupRel db t with _ | r
  · rw [hl] at h
    simp only [Except.ok.injEq] at h
    rw [← h]
    exact ⟨rfl, rfl, rfl, rfl⟩
  · rw [hl] at h
    rcases b with _ | _
    · simp at h
    · simp at h
      subst h
      exact ⟨rfl, rfl, rfl, rfl⟩

theorem create_table_ok_state (f : Faults) (st : CreateStatement) (db : DbState)
    (hf : f.tablesInsertFault = none) (q : QueryResult)
    (hok : (SQLExec.create_table f st db).1 = Outcome.ok q) :
    ∃ nr : List (Nat × Row),
      (SQLExec.create_table f st db).2.1.tablesRel =
        (db.tablesRel.insert [("table_name", Value.VText st.tableName)]).2 ∧
      (SQLExec.create_table f st db).2.1.columnsRel =
        { rows := db.columnsRel.rows ++ nr,
          nextHandle := db.columnsRel.nextHandle + nr.length } ∧
      (∀ p ∈ nr, rowFind p.2 "table_name" = some (Value.VText st.tableName)) ∧
      (SQLExec.create_table f st db).2.1.indicesRel = db.indicesRel ∧
      (SQLExec.create_table f st db).2.1.physIdx = db.physIdx := by
  obtain ⟨nr, h1, h2, h3, h4, h5⟩ :=
    insertColumnRows_spec st.tableName f st.columns 0
      { db with tablesRel :=
          (db.tablesRel.insert [("table_name", Value.VText st.tableName)]).2 } [] []
  rcases hicr : SQLExec.insertColumnRows st.tableName f st.columns 0
      { db with tablesRel :=
          (db.tablesRel.insert [("table_name", Value.VText st.tableName)]).2 } [] []
    with ⟨db2, colHs, evs, errOpt⟩
  rw [hicr] at h1 h2 h4
  simp only at h1 h2 h3 h4
  rw [SQLExec.create_table] at hok ⊢
  rw [hf] at hok ⊢
  simp only at hok ⊢
  rw [hicr] at hok ⊢
  rcases errOpt with _ | e0
  · rcases hpc : physTableCreate st.tableName st.ifNotExists db2 with e1 | db3
    · simp only [hpc] at hok
      exact Outcome.noConfusion hok
    · simp only [hpc] at hok ⊢
      obtain ⟨hta, htb, htc, htd⟩ := physTableCreate_ok_fields _ _ _ _ hpc
      refine ⟨nr, ?_, ?_, h5, ?_, ?_⟩
      · show db3.tablesRel = _
        rw [hta, h1]
      · show db3.columnsRel = _
        rw [htb, h1]
      · show db3.indicesRel = _
        rw [htc, h1]
      · show db3.physIdx = _
        rw [htd, h1]
  · simp only at hok
    exact Outcome.noConfusion hok

/-- Claim C5: SHOW TABLES returns exactly the rows of `_tables` (projected
to the `_tables` schema) whose table name is not one of the three
protected system relation names; and after any valid CREATE TABLE (an
unprotected name, completing successfully), SHOW TABLES includes the new
table's row and every returned row is unprotected. -/
theorem show_tables_excludes_protected :
    (∀ db : DbState, db.tablesRel.wf →
      tableColumnNames db tablesName = ["table_name"] →
      (SQLExec.show_tables db).1 =
        Outcome.ok { column_names := some ["table_name"],
                     rows := some (showTablesExpected db),
                     message := "successfully returned " ++
                       toString (showTablesExpected db).length ++ " rows" }) ∧
    (∀ (f : Faults) (st : CreateStatement) (db : DbState) (q : QueryResult),
      db.tablesRel.wf →
      f.tablesInsertFault = none →
      tableColumnNames db tablesName = ["table_name"] →
      ¬ protectedTable st.tableName →
      (SQLExec.create_table f st db).1 = Outcome.ok q →
      [("table_name", Value.VText st.tableName)] ∈
        showTablesExpected (SQLExec.create_table f st db).2.1 ∧
      (SQLExec.show_tables (SQLExec.create_table f st db).2.1).1 =
        Outcome.ok { column_names := some ["table_name"],
                     rows := some (showTablesExpected (SQLExec.create_table f st db).2.1),
                     message := "successfully returned " ++
                       toString (showTablesExpected
                         (SQLExec.create_table f st db).2.1).length ++ " rows" } ∧
      ∀ r ∈ showTablesExpected (SQLExec.create_table f st db).2.1,
        ¬ protectedTable (rowFindD r "table_name").getS) := by
  constructor
  · intro db hw hcn
    exact show_tables_rows_eq db hw hcn
  · intro f st db q hwt hf hcn hnp hok
    obtain ⟨nr, ht1, hc1, hc2, _, _⟩ := create_table_ok_state f st db hf q hok
    have htne : st.tableName ≠ tablesName := by
      intro he
      exact hnp (Or.inl he)
    have hcn' : tableColumnNames (SQLExec.create_table f st db).2.1 tablesName =
        ["table_name"] := by
      unfold tableColumnNames getColumnRows at hcn ⊢
      rw [hc1]
      simp only
      rw [List.filter_append]
      have hnil : nr.filter
          (fun p => rowMatches [("table_name", Value.VText tablesName)] p.2) = [] := by
        apply List.filter_eq_nil_iff.mpr
        intro p hp
        unfold rowMatches
        simp only [List.all_cons, List.all_nil, Bool.and_true]
        rw [hc2 p hp]
        simp [htne]
      rw [hnil, List.append_nil]
      exact hcn
    have hwt' : (SQLExec.create_table f st db).2.1.tablesRel.wf := by
      rw [ht1]
      exact StoredRel.wf_insert _ hwt
    have hmem : [("table_name", Value.VText st.tableName)] ∈
        showTablesExpected (SQLExec.create_table f st db).2.1 := by
      unfold showTablesExpected
      rw [hcn', ht1]
      show _ ∈ ((db.tablesRel.rows ++
        [(db.tablesRel.nextHandle,
          [("table_name", Value.VText st.tableName)])]).map _).filter _
      rw [List.map_append, List.filter_append]
      apply List.mem_append_right
      have hrr : rowRestrict [("table_name", Value.VText st.tableName)] ["table_name"] =
          [("table_name", Value.VText st.tableName)] := by
        simp [rowRestrict, rowFind]
      simp only [List.map_cons, List.map_nil, hrr]
      have hkeep : decide (¬ protectedTable
          (rowFindD [("table_name", Value.VText st.tableName)] "table_name").getS)
          = true := by
        apply decide_eq_true
        show ¬ protectedTable (Value.VText st.tableName).getS
        exact hnp
      simp [List.filter, hkeep]
    refine ⟨hmem, show_tables_rows_eq _ hwt' hcn', ?_⟩
    intro r hr
    unfold showTablesExpected at hr
    have := (List.mem_filter.mp hr).2
    exact of_decide_eq_true this

/-- Witness for C5: `CREATE TABLE goober (x INT, y INT, z INT)` on the
bootstrap database succeeds, and SHOW TABLES afterwards includes the
goober row and no protected row. -/
theorem show_tables_excludes_protected_witness :
    [("table_name", Value.VText "goober")] ∈
      showTablesExpected (SQLExec.create_table noFaults ctGoober dbBoot).2.1 ∧
    ∀ r ∈ showTablesExpected (SQLExec.create_table noFaults ctGoober dbBoot).2.1,
      ¬ protectedTable (rowFindD r "table_name").getS := by
  have h := show_tables_excludes_protected.2 noFaults ctGoober dbBoot
    { column_names := none, rows := none, message := "created table goober" }
    StoredRel.wf_empty rfl (by decide) (by decide) rfl
  exact ⟨h.1, h.2.2⟩

/-! ### DROP TABLE -/

theorem select_del_of_singleton {r : StoredRel} {w : Row} {h0 : Nat}
    (hsel : r.select w = [h0]) : (r.del h0).select w = [] := by
  apply StoredRel.select_eq_nil_iff.mpr
  intro p hp
  have hp2 : p ∈ r.rows ∧ (p.1 != h0) = true := List.mem_filter.mp hp
  rcases hmatch : rowMatches w p.2 with _ | _
  · rfl
  · exfalso
    have hmem : p.1 ∈ r.select w := StoredRel.mem_select.mpr ⟨p, hp2.1, rfl, hmatch⟩
    rw [hsel] at hmem
    have heq : p.1 = h0 := by simpa using hmem
    have hne := hp2.2
    rw [heq] at hne
    simp at hne

/-- Claim C8: for every successful DROP TABLE t (t unprotected, exactly
one `_tables` row, physical storage present), on completion every
`_indices` row and every `_columns` row whose table name is t has been
deleted, the physical relation has been dropped, and t's `_tables` row
has been deleted; the trace shows the index and column metadata removed
before the physical table drop, which precedes the `_tables` delete. -/
theorem drop_table_removes_all_metadata (st : DropStatement) (db : DbState)
    (h0 : Nat)
    (ht : st.type = DropEntity.kTable)
    (hp : ¬ protectedTable st.name)
    (hwi : db.indicesRel.wf) (hwc : db.columnsRel.wf)
    (hreg : db.tablesRel.select [("table_name", Value.VText st.name)] = [h0])
    (hphys : (lookupRel db st.name).isSome = true) :
    ∃ q,
      (SQLExec.drop_table st db).1 = Outcome.ok q ∧
      (∀ p ∈ (SQLExec.drop_table st db).2.1.indicesRel.rows,
        rowMatches [("table_name", Value.VText st.name)] p.2 = false) ∧
      (∀ p ∈ (SQLExec.drop_table st db).2.1.columnsRel.rows,
        rowMatches [("table_name", Value.VText st.name)] p.2 = false) ∧
      lookupRel (SQLExec.drop_table st db).2.1 st.name = none ∧
      (SQLExec.drop_table st db).2.1.tablesRel.select
        [("table_name", Value.VText st.name)] = [] ∧
      (SQLExec.drop_table st db).2.2 =
        (db.indicesRel.select [("table_name", Value.VText st.name)]).map
          Event.delIndices ++
        (db.columnsRel.select [("table_name", Value.VText st.name)]).map
          Event.delColumns ++
        [Event.physDropTable st.name, Event.delTables h0] := by
  have hp' : ¬ (st.name = tablesName ∨ st.name = columnsName ∨ st.name = indicesName) :=
    hp
  rcases hl : lookupRel db st.name with _ | r
  · rw [hl] at hphys
    exact Bool.noConfusion hphys
  rw [SQLExec.drop_table]
  rw [ht]
  simp only [if_neg hp']
  rw [hreg]
  simp only [List.isEmpty_cons, Bool.false_eq_true, if_false]
  have hpd : physTableDrop st.name
      { db with
        indicesRel := db.indicesRel.delAll
          (db.indicesRel.select [("table_name", Value.VText st.name)]),
        columnsRel := db.columnsRel.delAll
          (db.columnsRel.select [("table_name", Value.VText st.name)]) } =
      Except.ok
        { db with
          indicesRel := db.indicesRel.delAll
            (db.indicesRel.select [("table_name", Value.VText st.name)]),
          columnsRel := db.columnsRel.delAll
            (db.columnsRel.select [("table_name", Value.VText st.name)]),
          userRels := db.userRels.filter (fun p => p.1 != st.name) } := by
    unfold physTableDrop lookupRel
    unfold lookupRel at hl
    simp only
    rw [hl]
  simp only [hpd]
  rw [hreg]
  refine ⟨_, rfl, ?_, ?_, ?_, ?_, ?_⟩
  · intro p hp2
    exact StoredRel.delAll_select_no_match hwi p hp2
  · intro p hp2
    exact StoredRel.delAll_select_no_match hwc p hp2
  · unfold lookupRel
    simp only
    apply Option.map_eq_none.mpr
    apply List.find?_eq_none.mpr
    intro x hx
    have := (List.mem_filter.mp hx).2
    simpa using this
  · exact select_del_of_singleton hreg
  · simp

/-- Witness for C8: `DROP TABLE goober` on the goober database succeeds
with all its metadata removed. -/
theorem drop_table_removes_all_metadata_witness :
    ∃ q, (SQLExec.drop_table
      { type := DropEntity.kTable, name := "goober", indexName := "" } dbGoober).1 =
        Outcome.ok q ∧
      lookupRel (SQLExec.drop_table
        { type := DropEntity.kTable, name := "goober", indexName := "" }
          dbGoober).2.1 "goober" = none := by
  obtain ⟨q, hq, _, _, hl, _, _⟩ := drop_table_removes_all_metadata
    { type := DropEntity.kTable, name := "goober", indexName := "" } dbGoober 0 rfl
    (by decide) (by decide) (by decide) (by decide) (by decide)
  exact ⟨q, hq, hl⟩

/-! ### CREATE INDEX versus the registration check -/

theorem idxDrop_err_form (t i : Identifier) (db : DbState) (e : DbError)
    (h : idxDrop t i db = Except.error e) : ∃ m, e = DbError.relation m := by
  unfold idxDrop at h
  rcases hl : lookupIdx db t i with _ | l
  · rw [hl] at h
    simp only [Except.error.injEq] at h
    exact ⟨_, h.symm⟩
  · rw [hl] at h
    exact Except.noConfusion h

theorem idxCreate_err_form (t i : Identifier) (db : DbState) (e : DbError)
    (h : idxCreate t i db = Except.error e) : ∃ m, e = DbError.relation m := by
  unfold idxCreate at h
  rcases hl : lookupIdx db t i with _ | l
  · rw [hl] at h
    exact Except.noConfusion h
  · rw [hl] at h
    simp only [Except.error.injEq] at h
    exact ⟨_, h.symm⟩

theorem drop_index_err_forms (st : DropStatement) (db : DbState) (e : DbError)
    (h : (SQLExec.drop_index st db).1 = Outcome.err e) :
    (∃ m, e = DbError.relation m) ∨
      e = DbError.sql (SqlErr.dropNonexistentIndex st.indexName st.name) := by
  simp only [SQLExec.drop_index] at h
  rcases hd : idxDrop st.name st.indexName db with e1 | db1
  · rw [hd] at h
    simp only [Outcome.err.injEq] at h
    obtain ⟨m, hm⟩ := idxDrop_err_form _ _ _ _ hd
    exact Or.inl ⟨m, by rw [← h, hm]⟩
  · rw [hd] at h
    simp only at h
    by_cases hempty :
        (db1.indicesRel.select [("table_name", Value.VText st.name),
          ("index_name", Value.VText st.indexName)]).isEmpty = true
    · rw [if_pos hempty] at h
      simp only [Outcome.err.injEq] at h
      exact Or.inr h.symm
    · rw [if_neg hempty] at h
      exact Outcome.noConfusion h

/-- Claim C9: INSERT, DELETE, SELECT and DROP TABLE each select on
`_tables` first and fail with their not-found error when the result is
empty, leaving the state untouched; CREATE INDEX performs no such check -
its only `SQLExecError`s are "no such column" and (via its internal DROP
INDEX) "attempting to drop non-existent index", so CREATE INDEX on an
unregistered table name never produces the executor's not-found error. -/
theorem create_index_skips_registration_check :
    (∀ (st : InsertStatement) (db : DbState),
      db.tablesRel.select [("table_name", Value.VText st.tableName)] = [] →
      SQLExec.insert st db =
        (Outcome.err (DbError.sql (SqlErr.insertNonexistentTable st.tableName)),
         db, [])) ∧
    (∀ (st : DeleteStatement) (db : DbState),
      db.tablesRel.select [("table_name", Value.VText st.tableName)] = [] →
      SQLExec.del st db =
        (Outcome.err (DbError.sql (SqlErr.deleteNonexistentTable st.tableName)),
         db, [])) ∧
    (∀ (st : SelectStatement) (db : DbState),
      db.tablesRel.select [("table_name", Value.VText st.fromTable)] = [] →
      SQLExec.select st db =
        (Outcome.err (DbError.sql (SqlErr.selectNonexistentTable st.fromTable)),
         db, [])) ∧
    (∀ (st : DropStatement) (db : DbState),
      st.type = DropEntity.kTable →
      ¬ protectedTable st.name →
      db.tablesRel.select [("table_name", Value.VText st.name)] = [] →
      SQLExec.drop_table st db =
        (Outcome.err (DbError.sql (SqlErr.dropNonexistentTable st.name)), db, [])) ∧
    (∀ (st : CreateStatement) (db : DbState) (e : SqlErr),
      (SQLExec.create_index st db).1 = Outcome.err (DbError.sql e) →
      ((∃ c, e = SqlErr.noSuchColumn c st.tableName) ∨
        e = SqlErr.dropNonexistentIndex st.indexName st.tableName) ∧
      ∀ t2 : Identifier,
        e ≠ SqlErr.insertNonexistentTable t2 ∧
        e ≠ SqlErr.deleteNonexistentTable t2 ∧
        e ≠ SqlErr.selectNonexistentTable t2 ∧
        e ≠ SqlErr.dropNonexistentTable t2) := by
  refine ⟨?_, ?_, ?_, ?_, ?_⟩
  · intro st db hsel
    simp only [SQLExec.insert]
    rw [hsel]
    rfl
  · intro st db hsel
    simp only [SQLExec.del]
    rw [hsel]
    rfl
  · intro st db hsel
    simp only [SQLExec.select]
    rw [hsel]
    rfl
  · intro st db ht hp hsel
    have hp' : ¬ (st.name = tablesName ∨ st.name = columnsName ∨
        st.name = indicesName) := hp
    rw [SQLExec.drop_table, ht]
    simp only [if_neg hp']
    rw [hsel]
    rfl
  · intro st db e herr
    have hforms : (∃ c, e = SqlErr.noSuchColumn c st.tableName) ∨
        e = SqlErr.dropNonexistentIndex st.indexName st.tableName := by
      simp only [SQLExec.create_index] at herr
      rcases hfind : st.indexColumns.find?
          (fun c => !((tableColumnNames db st.tableName).contains c)) with _ | c
      · rw [hfind] at herr
        simp only at herr
        rcases hins : SQLExec.insertIndexRows st.indexColumns
            [("table_name", Value.VText st.tableName),
             ("index_name", Value.VText st.indexName),
             ("column_name", Value.VText ""),
             ("seq_in_index", Value.VInt 0),
             ("index_type", Value.VText st.indexType),
             ("is_unique", Value.VBool (st.indexType == "BTREE"))] db []
          with ⟨db1, evs⟩
        rw [hins] at herr
        simp only at herr
        rcases hcr : idxCreate st.tableName st.indexName db1 with e1 | db2
        · rw [hcr] at herr
          simp only at herr
          rcases hdi : SQLExec.drop_index
              { type := DropEntity.kIndex, name := st.tableName,
                indexName := st.indexName } db1 with ⟨dout, db3, devs⟩
          rw [hdi] at herr
          rcases dout with q2 | e2 | _
          · simp only [Outcome.err.injEq] at herr
            obtain ⟨m, hm⟩ := idxCreate_err_form _ _ _ _ hcr
            rw [hm] at herr
            exact absurd herr.symm (by intro hcontra; exact DbError.noConfusion hcontra)
          · simp only [Outcome.err.injEq] at herr
            have hd3 : (SQLExec.drop_index
                { type := DropEntity.kIndex, name := st.tableName,
                  indexName := st.indexName } db1).1 = Outcome.err e2 := by
              rw [hdi]
            rcases drop_index_err_forms _ _ _ hd3 with ⟨m, hm⟩ | hm
            · rw [hm] at herr
              exact absurd herr.symm (by intro hcontra; exact DbError.noConfusion hcontra)
            · rw [hm] at herr
              have := herr.symm
              simp only [DbError.sql.injEq] at this
              exact Or.inr this
          · exact Outcome.noConfusion herr
        · rw [hcr] at herr
          simp only at herr
          exact Outcome.noConfusion herr
      · rw [hfind] at herr
        simp only [Outcome.err.injEq, DbError.sql.injEq] at herr
        exact Or.inl ⟨c, herr.symm⟩
    refine ⟨hforms, ?_⟩
    intro t2
    rcases hforms with ⟨c, rfl⟩ | rfl
    · exact ⟨fun hc => SqlErr.noConfusion hc, fun hc => SqlErr.noConfusion hc,
        fun hc => SqlErr.noConfusion hc, fun hc => SqlErr.noConfusion hc⟩
    · exact ⟨fun hc => SqlErr.noConfusion hc, fun hc => SqlErr.noConfusion hc,
        fun hc => SqlErr.noConfusion hc, fun hc => SqlErr.noConfusion hc⟩

/-- Witness for C9: on the goober database, INSERT INTO nosuch fails with
the not-found error, while CREATE INDEX on the unregistered name nosuch
errors only with "no such column" - not the not-found error. -/
theorem create_index_skips_registration_check_witness :
    SQLExec.insert { tableName := "nosuch", values := [Expr.litInt 1] } dbGoober =
      (Outcome.err (DbError.sql (SqlErr.insertNonexistentTable "nosuch")),
       dbGoober, []) ∧
    ∀ t2 : Identifier,
      SqlErr.noSuchColumn "x" "nosuch" ≠ SqlErr.insertNonexistentTable t2 ∧
      SqlErr.noSuchColumn "x" "nosuch" ≠ SqlErr.deleteNonexistentTable t2 ∧
      SqlErr.noSuchColumn "x" "nosuch" ≠ SqlErr.selectNonexistentTable t2 ∧
      SqlErr.noSuchColumn "x" "nosuch" ≠ SqlErr.dropNonexistentTable t2 := by
  constructor
  · exact create_index_skips_registration_check.1
      { tableName := "nosuch", values := [Expr.litInt 1] } dbGoober (by decide)
  · exact (create_index_skips_registration_check.2.2.2.2
      { type := CreateType.kIndex, tableName := "nosuch", columns := [],
        ifNotExists := false, indexName := "ix", indexType := "BTREE",
        indexColumns := ["x"] } dbGoober
      (SqlErr.noSuchColumn "x" "nosuch") (by decide)).2

/-! ### INSERT row building -/

theorem rowSet_append_of_none (acc : Row) (c : Identifier) (v : Value)
    (h : rowFind acc c = none) : rowSet acc c v = acc ++ [(c, v)] := by
  induction acc with
  | nil => rfl
  | cons p rest ih =>
      by_cases hp : p.1 = c
      · rw [rowFind] at h
        exfalso
        revert h
        show (if p.1 = c then some p.2 else rowFind rest c) = none → False
        rw [if_pos hp]
        intro h
        exact Option.noConfusion h
      · show rowSet ((p.1, p.2) :: rest) c v = _
        rw [rowSet, if_neg hp]
        have hrest : rowFind rest c = none := by
          rw [rowFind] at h
          revert h
          show (if p.1 = c then some p.2 else rowFind rest c) = none → _
          rw [if_neg hp]
          exact id
        rw [ih hrest]
        rfl

theorem rowFind_append_none (r1 r2 : Row) (k : Identifier)
    (h : rowFind r1 k = none) : rowFind (r1 ++ r2) k = rowFind r2 k := by
  induction r1 with
  | nil => rfl
  | cons p rest ih =>
      rw [rowFind] at h
      revert h
      show (if p.1 = k then some p.2 else rowFind rest k) = none → _
      by_cases hp : p.1 = k
      · rw [if_pos hp]
        intro h
        exact Option.noConfusion h
      · rw [if_neg hp]
        intro h
        show (if p.1 = k then some p.2 else rowFind (rest ++ r2) k) = _
        rw [if_neg hp]
        exact ih h

theorem buildInsertRow_no_undef (vs : List Expr) :
    ∀ (cn : List Identifier) (acc : Row), vs.length ≤ cn.length →
      SQLExec.buildInsertRow vs cn acc ≠ Outcome.undef := by
  induction vs with
  | nil =>
      intro cn acc _ h
      exact Outcome.noConfusion h
  | cons v vs ih =>
      intro cn acc hlen
      cases cn with
      | nil => simp at hlen
      | cons c cs =>
          have hlen' : vs.length ≤ cs.length := by simpa using hlen
          cases v with
          | litInt n => exact ih cs _ hlen'
          | litString s => exact ih cs _ hlen'
          | colRef nm => intro h; exact Outcome.noConfusion h
          | star => intro h; exact Outcome.noConfusion h
          | binop a b l r => intro h; exact Outcome.noConfusion h

theorem buildInsertRow_undef (vs : List Expr) :
    ∀ (cn : List Identifier) (acc : Row), cn.length < vs.length →
      (∀ v ∈ vs, isLiteralExpr v = true) →
      SQLExec.buildInsertRow vs cn acc = Outcome.undef := by
  induction vs with
  | nil =>
      intro cn acc hlen _
      simp at hlen
  | cons v vs ih =>
      intro cn acc hlen hlit
      cases cn with
      | nil => rfl
      | cons c cs =>
          have hv := hlit v (List.mem_cons_self v vs)
          have hlen' : cs.length < vs.length := by simpa using hlen
          have hlit' : ∀ v2 ∈ vs, isLiteralExpr v2 = true :=
            fun v2 hv2 => hlit v2 (List.mem_cons_of_mem v hv2)
          cases v with
          | litInt n => exact ih cs _ hlen' hlit'
          | litString s => exact ih cs _ hlen' hlit'
          | colRef nm => exact absurd hv (by simp [isLiteralExpr])
          | star => exact absurd hv (by simp [isLiteralExpr])
          | binop a b l r => exact absurd hv (by simp [isLiteralExpr])

theorem buildInsertRow_ok_keys (vs : List Expr) :
    ∀ (cn : List Identifier) (acc : Row), vs.length ≤ cn.length →
      (∀ v ∈ vs, isLiteralExpr v = true) →
      (∀ c ∈ cn, rowFind acc c = none) → cn.Nodup →
      ∃ r, SQLExec.buildInsertRow vs cn acc = Outcome.ok r ∧
        r.map Prod.fst = acc.map Prod.fst ++ cn.take vs.length := by
  induction vs with
  | nil =>
      intro cn acc _ _ _ _
      exact ⟨acc, rfl, by simp⟩
  | cons v vs ih =>
      intro cn acc hlen hlit hdisj hnd
      cases cn with
      | nil => simp at hlen
      | cons c cs =>
          have hv := hlit v (List.mem_cons_self v vs)
          have hfind : rowFind acc c = none := hdisj c (List.mem_cons_self c cs)
          have hnd2 := List.nodup_cons.mp hnd
          have hlen' : vs.length ≤ cs.length := by simpa using hlen
          have hlit' : ∀ v2 ∈ vs, isLiteralExpr v2 = true :=
            fun v2 hv2 => hlit v2 (List.mem_cons_of_mem v hv2)
          have hdisj' : ∀ (val : Value) (c2 : Identifier), c2 ∈ cs →
              rowFind (acc ++ [(c, val)]) c2 = none := by
            intro val c2 hc2
            rw [rowFind_append_none _ _ _ (hdisj c2 (List.mem_cons_of_mem c hc2))]
            have hne : c ≠ c2 := by
              intro he
              exact hnd2.1 (he ▸ hc2)
            show (if c = c2 then some val else rowFind [] c2) = none
            rw [if_neg hne]
            rfl
          cases v with
          | litInt n =>
              obtain ⟨r, hr, hkeys⟩ := ih cs (acc ++ [(c, Value.VInt n)]) hlen' hlit'
                (hdisj' (Value.VInt n)) hnd2.2
              refine ⟨r, ?_, ?_⟩
              · show SQLExec.buildInsertRow vs cs (rowSet acc c (Value.VInt n)) = _
                rw [rowSet_append_of_none acc c (Value.VInt n) hfind]
                exact hr
              · rw [hkeys]
                simp
          | litString s =>
              obtain ⟨r, hr, hkeys⟩ := ih cs (acc ++ [(c, Value.VText s)]) hlen' hlit'
                (hdisj' (Value.VText s)) hnd2.2
              refine ⟨r, ?_, ?_⟩
              · show SQLExec.buildInsertRow vs cs (rowSet acc c (Value.VText s)) = _
                rw [rowSet_append_of_none acc c (Value.VText s) hfind]
                exact hr
              · rw [hkeys]
                simp
          | colRef nm => exact absurd hv (by simp [isLiteralExpr])
          | star => exact absurd hv (by simp [isLiteralExpr])
          | binop a b l r => exact absurd hv (by simp [isLiteralExpr])

theorem insert_short_values_ok (st : InsertStatement) (db : DbState)
    (hsel : (db.tablesRel.select
      [("table_name", Value.VText st.tableName)]).isEmpty = false)
    (hphys : (lookupRel db st.tableName).isSome = true)
    (hidx : getIndexNames db st.tableName = [])
    (hlit : ∀ v ∈ st.values, isLiteralExpr v = true)
    (hnd : (tableColumnNames db st.tableName).Nodup)
    (hlen : st.values.length ≤ (tableColumnNames db st.tableName).length) :
    ∃ q db2 evs, SQLExec.insert st db = (Outcome.ok q, db2, evs) := by
  simp only [SQLExec.insert]
  rw [hsel]
  simp only [Bool.false_eq_true, if_false]
  obtain ⟨r, hr, _⟩ := buildInsertRow_ok_keys st.values
    (tableColumnNames db st.tableName) [] hlen hlit (fun c _ => rfl) hnd
  rw [hr]
  rcases hl : lookupRel db st.tableName with _ | rel
  · rw [hl] at hphys
    exact Bool.noConfusion hphys
  · simp only
    have hidx2 : getIndexNames
        (setRel db st.tableName (rel.insert r).2) st.tableName = [] := hidx
    rw [hidx2]
    exact ⟨_, _, _, rfl⟩

/-- Claim C10: INSERT builds the row by indexing the schema's column-name
sequence at each value position with no count check - the access is in
bounds exactly when the value list is no longer than the schema (a
longer all-literal list reaches the out-of-bounds access, i.e. undefined
behavior), and a shorter all-literal value list yields a row holding
only the leading columns (the trailing columns are missing) while the
statement succeeds with no executor error. -/
theorem insert_positional_mapping_truncates :
    (∀ (vs : List Expr) (cn : List Identifier) (acc : Row),
      vs.length ≤ cn.length → SQLExec.buildInsertRow vs cn acc ≠ Outcome.undef) ∧
    (∀ (vs : List Expr) (cn : List Identifier) (acc : Row),
      cn.length < vs.length → (∀ v ∈ vs, isLiteralExpr v = true) →
      SQLExec.buildInsertRow vs cn acc = Outcome.undef) ∧
    (∀ (vs : List Expr) (cn : List Identifier),
      vs.length ≤ cn.length → (∀ v ∈ vs, isLiteralExpr v = true) → cn.Nodup →
      ∃ r, SQLExec.buildInsertRow vs cn [] = Outcome.ok r ∧
        r.map Prod.fst = cn.take vs.length) ∧
    (∀ (st : InsertStatement) (db : DbState),
      (db.tablesRel.select
        [("table_name", Value.VText st.tableName)]).isEmpty = false →
      (lookupRel db st.tableName).isSome = true →
      getIndexNames db st.tableName = [] →
      (∀ v ∈ st.values, isLiteralExpr v = true) →
      (tableColumnNames db st.tableName).Nodup →
      st.values.length < (tableColumnNames db st.tableName).length →
      ∃ q db2 evs, SQLExec.insert st db = (Outcome.ok q, db2, evs)) := by
  refine ⟨buildInsertRow_no_undef, buildInsertRow_undef, ?_, ?_⟩
  · intro vs cn hlen hlit hnd
    obtain ⟨r, hr, hkeys⟩ :=
      buildInsertRow_ok_keys vs cn [] hlen hlit (fun c _ => rfl) hnd
    exact ⟨r, hr, by simpa using hkeys⟩
  · intro st db hsel hphys hidx hlit hnd hlen
    exact insert_short_values_ok st db hsel hphys hidx hlit hnd (Nat.le_of_lt hlen)

/-- Witness for C10: inserting two literal values into the three-column
goober table succeeds (the built row simply lacks column z), while the
raw row-building loop on a one-column schema with two values reaches the
out-of-bounds access. -/
theorem insert_positional_mapping_truncates_witness :
    (∃ q db2 evs, SQLExec.insert
      { tableName := "goober", values := [Expr.litInt 1, Expr.litInt 2] } dbGoober =
        (Outcome.ok q, db2, evs)) ∧
    SQLExec.buildInsertRow [Expr.litInt 1, Expr.litInt 2] ["x"] [] =
      Outcome.undef := by
  constructor
  · exact insert_positional_mapping_truncates.2.2.2
      { tableName := "goober", values := [Expr.litInt 1, Expr.litInt 2] } dbGoober
      (by decide) (by decide) (by decide) (by decide) (by decide) (by decide)
  · exact insert_positional_mapping_truncates.2.1
      [Expr.litInt 1, Expr.litInt 2] ["x"] [] (by decide) (by decide)

/-! ### The `_indices` group invariant: basic facts -/

theorem wrapRelationError_state (r : ExecOut) :
    (SQLExec.wrapRelationError r).2.1 = r.2.1 := by
  rcases r with ⟨out, db1, evs⟩
  rcases out with q | e | _
  · rfl
  · rcases e with e2 | m
    · rfl
    · rfl
  · rfl

theorem IndicesInv_of_eq {db db' : DbState} (hinv : IndicesInv db)
    (hrel : db'.indicesRel = db.indicesRel)
    (hphys : ∀ t i, physIdxHas db t i → physIdxHas db' t i) : IndicesInv db' := by
  obtain ⟨hw, hgroups⟩ := hinv
  constructor
  · rw [hrel]
    exact hw
  · intro t i
    have hg : groupRows db' t i = groupRows db t i := by
      unfold groupRows
      rw [hrel]
    rw [hg]
    obtain ⟨h1, h2, h3⟩ := hgroups t i
    exact ⟨h1, h2, fun hne => hphys t i (h3 hne)⟩

theorem rowMatches_groupWhere {t i : Identifier} {r : Row} :
    rowMatches (groupWhere t i) r = true ↔
      rowFind r "table_name" = some (Value.VText t) ∧
      rowFind r "index_name" = some (Value.VText i) := by
  unfold rowMatches groupWhere
  simp

theorem groupWhere_unique {t i t2 i2 : Identifier} {r : Row}
    (h1 : rowMatches (groupWhere t i) r = true)
    (h2 : rowMatches (groupWhere t2 i2) r = true) : t = t2 ∧ i = i2 := by
  obtain ⟨ha, hb⟩ := rowMatches_groupWhere.mp h1
  obtain ⟨hc, hd⟩ := rowMatches_groupWhere.mp h2
  rw [ha] at hc
  rw [hb] at hd
  simp only [Option.some.injEq, Value.VText.injEq] at hc hd
  exact ⟨hc, hd⟩

theorem rowMatches_table_of_group {t i : Identifier} {r : Row}
    (h : rowMatches (groupWhere t i) r = true) :
    rowMatches [("table_name", Value.VText t)] r = true := by
  obtain ⟨ha, _⟩ := rowMatches_groupWhere.mp h
  unfold rowMatches
  simp [ha]

theorem groupRows_nil_iff_select_nil {db : DbState} {t i : Identifier} :
    groupRows db t i = [] ↔
      db.indicesRel.select (groupWhere t i) = [] := by
  unfold groupRows StoredRel.select
  simp

theorem find?_filter_ne {α : Type} [DecidableEq α] {β : Type}
    (l : List ((α × α) × β)) (k k' : α × α) (hne : k' ≠ k) :
    (l.filter (fun p => p.1 != k)).find? (fun p => p.1 == k') =
      l.find? (fun p => p.1 == k') := by
  induction l with
  | nil => rfl
  | cons p rest ih =>
      by_cases hk : p.1 = k
      · have hf : (p.1 != k) = false := by simp [hk]
        have hk' : (p.1 == k') = false := by
          simp only [beq_eq_false_iff_ne, ne_eq]
          rw [hk]
          exact fun he => hne he.symm
        rw [List.filter_cons, hf]
        simp only [Bool.false_eq_true, if_false]
        rw [List.find?_cons, hk']
        exact ih
      · have hf : (p.1 != k) = true := by simp [hk]
        rw [List.filter_cons, hf]
        simp only [if_true]
        rw [List.find?_cons, List.find?_cons]
        rcases hpk' : (p.1 == k') with _ | _
        · exact ih
        · rfl

theorem physIdxHas_filter_ne {db : DbState} {t i t2 i2 : Identifier}
    (hne : (t2, i2) ≠ (t, i)) :
    physIdxHas { db with physIdx := db.physIdx.filter (fun p => p.1 != (t, i)) }
        t2 i2 ↔ physIdxHas db t2 i2 := by
  unfold physIdxHas lookupIdx
  simp only
  rw [find?_filter_ne db.physIdx (t, i) (t2, i2) hne]

theorem StoredRel.wf_append_fresh {r : StoredRel} (nr : List (Nat × Row))
    (hw : r.wf) (hh : nr.map Prod.fst = List.range' r.nextHandle nr.length) :
    StoredRel.wf { rows := r.rows ++ nr, nextHandle := r.nextHandle + nr.length } := by
  constructor
  · intro p hp
    rcases List.mem_append.mp hp with hold | hnew
    · exact Nat.lt_of_lt_of_le (hw.1 p hold) (Nat.le_add_right _ _)
    · have : p.1 ∈ nr.map Prod.fst := List.mem_map_of_mem Prod.fst hnew
      rw [hh] at this
      exact (List.mem_range'_1.mp this).2
  · rw [List.pairwise_append]
    refine ⟨hw.2, ?_, ?_⟩
    · have hnodup : (nr.map Prod.fst).Nodup := by
        rw [hh]
        exact List.nodup_range' _ _
      rw [List.Nodup, List.pairwise_map] at hnodup
      exact hnodup
    · intro a ha b hb
      have hb1 : b.1 ∈ nr.map Prod.fst := List.mem_map_of_mem Prod.fst hb
      rw [hh] at hb1
      have := (List.mem_range'_1.mp hb1).1
      exact Nat.ne_of_lt (Nat.lt_of_lt_of_le (hw.1 a ha) this)

/-! ### Characterization of the CREATE INDEX row-insert loop -/

theorem insertIndexRows_spec (cols : List Identifier) :
    ∀ (row : Row) (db : DbState) (evs : List Event),
    ∃ nr : List (Nat × Row),
      (SQLExec.insertIndexRows cols row db evs).1 =
        { db with indicesRel :=
            { rows := db.indicesRel.rows ++ nr,
              nextHandle := db.indicesRel.nextHandle + nr.length } } ∧
      nr.map Prod.fst = List.range' db.indicesRel.nextHandle nr.length ∧
      nr.length = cols.length ∧
      (∀ q ∈ nr,
        rowFind q.2 "table_name" = rowFind row "table_name" ∧
        rowFind q.2 "index_name" = rowFind row "index_name" ∧
        rowFind q.2 "index_type" = rowFind row "index_type" ∧
        rowFind q.2 "is_unique" = rowFind row "is_unique") ∧
      nr.map (fun q => (rowFindD q.2 "seq_in_index").getN) =
        (List.range cols.length).map
          (fun (j : Nat) => (rowFindD row "seq_in_index").getN + (j : Int) + 1) := by
  induction cols with
  | nil =>
      intro row db evs
      refine ⟨[], ?_, by simp, by simp, by simp, by simp⟩
      simp [SQLExec.insertIndexRows]
  | cons c rest ih =>
      intro row db evs
      set row1 := rowSet row "column_name" (Value.VText c) with hrow1
      set row2 := rowSet row1 "seq_in_index"
        (Value.VInt ((rowFindD row1 "seq_in_index").getN + 1)) with hrow2
      have hseq1 : rowFindD row1 "seq_in_index" = rowFindD row "seq_in_index" := by
        unfold rowFindD
        rw [hrow1, rowFind_set_ne row (Value.VText c) (by decide)]
      have hfield : ∀ k : Identifier, k ≠ "seq_in_index" → k ≠ "column_name" →
          rowFind row2 k = rowFind row k := by
        intro k h1 h2
        rw [hrow2, rowFind_set_ne row1 _ h1, hrow1, rowFind_set_ne row _ h2]
      have hseq2 : (rowFindD row2 "seq_in_index").getN =
          (rowFindD row "seq_in_index").getN + 1 := by
        unfold rowFindD
        rw [hrow2, rowFind_set_self]
        rw [hseq1] at *
        simp [Value.getN, rowFindD, hseq1]
      obtain ⟨nr', h1, h2, h3, h4, h5⟩ := ih row2
        { db with indicesRel := (db.indicesRel.insert row2).2 }
        (evs ++ [Event.insIndices (db.indicesRel.insert row2).1])
      refine ⟨(db.indicesRel.nextHandle, row2) :: nr', ?_, ?_, ?_, ?_, ?_⟩
      · show (SQLExec.insertIndexRows rest row2 _ _).1 = _
        rw [h1]
        simp [StoredRel.insert, Nat.add_comm, Nat.add_assoc, Nat.add_left_comm]
      · show db.indicesRel.nextHandle :: nr'.map Prod.fst = _
        rw [h2]
        show _ = List.range' db.indicesRel.nextHandle (nr'.length + 1)
        rw [List.range'_succ]
        rfl
      · simp [h3]
      · intro q hq
        rcases List.mem_cons.mp hq with rfl | hq'
        · exact ⟨hfield _ (by decide) (by decide), hfield _ (by decide) (by decide),
            hfield _ (by decide) (by decide), hfield _ (by decide) (by decide)⟩
        · obtain ⟨f1, f2, f3, f4⟩ := h4 q hq'
          refine ⟨?_, ?_, ?_, ?_⟩
          · rw [f1]; exact hfield _ (by decide) (by decide)
          · rw [f2]; exact hfield _ (by decide) (by decide)
          · rw [f3]; exact hfield _ (by decide) (by decide)
          · rw [f4]; exact hfield _ (by decide) (by decide)
      · show (rowFindD row2 "seq_in_index").getN ::
            nr'.map (fun q => (rowFindD q.2 "seq_in_index").getN) = _
        rw [h5, hseq2]
        show _ = (List.range (rest.length + 1)).map _
        rw [List.range_succ_eq_map, List.map_cons, List.map_map]
        refine congrArg₂ _ (by push_cast; ring) ?_
        apply List.map_congr_left
        intro j _
        show (rowFindD row "seq_in_index").getN + 1 + (j : Int) + 1 =
          (rowFindD row "seq_in_index").getN + ((Nat.succ j : Nat) : Int) + 1
        push_cast
        ring

/-! ### Statements that leave `_indices` and the physical indices alone -/

theorem create_table_indices_unchanged (f : Faults) (st : CreateStatement)
    (db : DbState) :
    (SQLExec.create_table f st db).2.1.indicesRel = db.indicesRel ∧
    (SQLExec.create_table f st db).2.1.physIdx = db.physIdx := by
  rcases hft : f.tablesInsertFault with _ | m
  case some => simp [SQLExec.create_table, hft]
  case none =>
    obtain ⟨nr, h1, h2, h3, h4, h5⟩ :=
      insertColumnRows_spec st.tableName f st.columns 0
        { db with tablesRel :=
            (db.tablesRel.insert [("table_name", Value.VText st.tableName)]).2 } [] []
    rcases hicr : SQLExec.insertColumnRows st.tableName f st.columns 0
        { db with tablesRel :=
            (db.tablesRel.insert [("table_name", Value.VText st.tableName)]).2 } [] []
      with ⟨db2, colHs, evs, errOpt⟩
    rw [hicr] at h1
    simp only at h1
    simp only [SQLExec.create_table, hft]
    rw [hicr]
    rcases errOpt with _ | e0
    · rcases hpc : physTableCreate st.tableName st.ifNotExists db2 with e1 | db3
      · simp only [hpc]
        constructor
        · show db2.indicesRel = _
          rw [h1]
        · show db2.physIdx = _
          rw [h1]
      · simp only [hpc]
        obtain ⟨_, _, hc, hd⟩ := physTableCreate_ok_fields _ _ _ _ hpc
        constructor
        · show db3.indicesRel = _
          rw [hc, h1]
        · show db3.physIdx = _
          rw [hd, h1]
    · simp only
      constructor
      · show db2.indicesRel = _
        rw [h1]
      · show db2.physIdx = _
        rw [h1]

theorem idxInsert_preserves {t i : Identifier} {h : Nat} {db db' : DbState}
    (hok : idxInsert t i h db = Except.ok db') :
    db'.indicesRel = db.indicesRel ∧
    ∀ t2 i2, physIdxHas db t2 i2 → physIdxHas db' t2 i2 := by
  unfold idxInsert at hok
  rcases hl : lookupIdx db t i with _ | l
  · rw [hl] at hok
    exact Except.noConfusion hok
  · rw [hl] at hok
    simp only [Except.ok.injEq] at hok
    subst hok
    refine ⟨rfl, ?_⟩
    intro t2 i2 hhas
    unfold physIdxHas lookupIdx at hhas ⊢
    simp only [Option.isSome_map'] at hhas ⊢
    rw [List.find?_isSome] at hhas ⊢
    obtain ⟨x, hx, hxk⟩ := hhas
    refine ⟨if x.1 == (t, i) then (x.1, x.2 ++ [h]) else x,
      List.mem_map_of_mem _ hx, ?_⟩
    rcases hc : (x.1 == (t, i)) with _ | _
    · simp only [hc, Bool.false_eq_true, if_false]
      exact hxk
    · simp only [hc, if_true]
      exact hxk

theorem insertIntoIndices_preserves (t : Identifier) (h : Nat) :
    ∀ (names : List Identifier) (db : DbState) (evs : List Event),
    (SQLExec.insertIntoIndices t h names db evs).1.indicesRel = db.indicesRel ∧
    ∀ t2 i2, physIdxHas db t2 i2 →
      physIdxHas (SQLExec.insertIntoIndices t h names db evs).1 t2 i2 := by
  intro names
  induction names with
  | nil => intro db evs; exact ⟨rfl, fun _ _ hh => hh⟩
  | cons i rest ih =>
      intro db evs
      simp only [SQLExec.insertIntoIndices]
      rcases hx : idxInsert t i h db with e | db1
      · exact ⟨rfl, fun _ _ hh => hh⟩
      · obtain ⟨ha, hc⟩ := idxInsert_preserves hx
        obtain ⟨ih1, ih2⟩ := ih db1 (evs ++ [Event.physInsertIndex t i h])
        exact ⟨by rw [ih1, ha], fun t2 i2 hh => ih2 t2 i2 (hc t2 i2 hh)⟩

theorem insert_indices_unchanged (st : InsertStatement) (db : DbState) :
    (SQLExec.insert st db).2.1.indicesRel = db.indicesRel ∧
    ∀ t2 i2, physIdxHas db t2 i2 → physIdxHas (SQLExec.insert st db).2.1 t2 i2 := by
  simp only [SQLExec.insert]
  rcases hsel : (db.tablesRel.select
      [("table_name", Value.VText st.tableName)]).isEmpty with _ | _
  · simp only [Bool.false_eq_true, if_false]
    rcases hbr : SQLExec.buildInsertRow st.values
        (tableColumnNames db st.tableName) [] with row | e | _
    · rcases hl : lookupRel db st.tableName with _ | rel
      · exact ⟨rfl, fun _ _ hh => hh⟩
      · simp only
        rcases hins : SQLExec.insertIntoIndices st.tableName (rel.insert row).1
            (getIndexNames (setRel db st.tableName (rel.insert row).2) st.tableName)
            (setRel db st.tableName (rel.insert row).2)
            [Event.insUser st.tableName (rel.insert row).1] with ⟨db2, evs2, errOpt⟩
        have hpre := insertIntoIndices_preserves st.tableName (rel.insert row).1
          (getIndexNames (setRel db st.tableName (rel.insert row).2) st.tableName)
          (setRel db st.tableName (rel.insert row).2)
          [Event.insUser st.tableName (rel.insert row).1]
        rw [hins] at hpre
        simp only at hpre
        rcases errOpt with _ | e2
        · exact ⟨hpre.1, fun t2 i2 hh => hpre.2 t2 i2 hh⟩
        · exact ⟨hpre.1, fun t2 i2 hh => hpre.2 t2 i2 hh⟩
    · exact ⟨rfl, fun _ _ hh => hh⟩
    · exact ⟨rfl, fun _ _ hh => hh⟩
  · exact ⟨rfl, fun _ _ hh => hh⟩

theorem del_state_fields (st : DeleteStatement) (db : DbState) :
    (SQLExec.del st db).2.1.indicesRel = db.indicesRel ∧
    (SQLExec.del st db).2.1.physIdx = db.physIdx := by
  simp only [SQLExec.del]
  rcases hsel : (db.tablesRel.select
      [("table_name", Value.VText st.tableName)]).isEmpty with _ | _
  · simp only [Bool.false_eq_true, if_false]
    rcases st.expr with _ | e
    · exact ⟨rfl, rfl⟩
    · simp only
      rcases hg : get_where_conjunction e [] with e2 | conj
      · exact ⟨rfl, rfl⟩
      · exact ⟨rfl, rfl⟩
  · exact ⟨rfl, rfl⟩

theorem select_state (st : SelectStatement) (db : DbState) :
    (SQLExec.select st db).2.1 = db := by
  simp only [SQLExec.select]
  rcases hsel : (db.tablesRel.select
      [("table_name", Value.VText st.fromTable)]).isEmpty with _ | _
  · simp only [Bool.false_eq_true, if_false]
    rcases st.whereClause with _ | e
    · rfl
    · simp only
      rcases hg : get_where_conjunction e [] with e2 | conj
      · rfl
      · rfl
  · rfl

theorem showStmt_state (st : ShowStatement) (db : DbState) :
    (SQLExec.showStmt st db).2.1 = db := by
  rcases st with ⟨ty, tn⟩
  rcases ty with _ | _ | _
  · rfl
  · rcases tn with _ | t
    · rfl
    · rfl
  · rcases tn with _ | t
    · rfl
    · rfl

/-! ### Group-level consequences of deletions and insertions -/

theorem seqContiguous_nil : seqContiguous [] := by
  simp [seqContiguous]

theorem groupConstant_nil : groupConstant [] := by
  intro r1 hr1
  exact absurd hr1 (List.not_mem_nil r1)

theorem physIdxHas_iff {db : DbState} {t2 i2 : Identifier} :
    physIdxHas db t2 i2 ↔ ∃ x ∈ db.physIdx, x.1 = (t2, i2) := by
  unfold physIdxHas lookupIdx
  simp only [Option.isSome_map', List.find?_isSome, beq_iff_eq]

theorem filter_group_after_delAll {r : StoredRel} (hw : r.wf) (t i t2 i2 : Identifier) :
    ((r.delAll (r.select (groupWhere t i))).rows.filter
        (fun p => rowMatches (groupWhere t2 i2) p.2)) =
      if t2 = t ∧ i2 = i then []
      else r.rows.filter (fun p => rowMatches (groupWhere t2 i2) p.2) := by
  rw [StoredRel.delAll_select_rows hw, List.filter_filter]
  by_cases h : t2 = t ∧ i2 = i
  · rw [if_pos h]
    obtain ⟨rfl, rfl⟩ := h
    apply List.filter_eq_nil_iff.mpr
    intro p _
    rcases hm : rowMatches (groupWhere t2 i2) p.2 with _ | _
    · simp [hm]
    · simp [hm]
  · rw [if_neg h]
    apply List.filter_congr
    intro p _
    rcases hm2 : rowMatches (groupWhere t2 i2) p.2 with _ | _
    · simp
    · simp only [Bool.true_and]
      rcases hm : rowMatches (groupWhere t i) p.2 with _ | _
      · rfl
      · obtain ⟨he1, he2⟩ := groupWhere_unique hm hm2
        exact absurd ⟨he1.symm, he2.symm⟩ h

theorem filter_group_after_delTable {r : StoredRel} (hw : r.wf)
    (t t2 i2 : Identifier) :
    ((r.delAll (r.select [("table_name", Value.VText t)])).rows.filter
        (fun p => rowMatches (groupWhere t2 i2) p.2)) =
      if t2 = t then []
      else r.rows.filter (fun p => rowMatches (groupWhere t2 i2) p.2) := by
  rw [StoredRel.delAll_select_rows hw, List.filter_filter]
  by_cases h : t2 = t
  · rw [if_pos h]
    subst h
    apply List.filter_eq_nil_iff.mpr
    intro p _
    rcases hm2 : rowMatches (groupWhere t2 i2) p.2 with _ | _
    · simp [hm2]
    · have := rowMatches_table_of_group hm2
      simp [this, hm2]
  · rw [if_neg h]
    apply List.filter_congr
    intro p _
    rcases hm2 : rowMatches (groupWhere t2 i2) p.2 with _ | _
    · simp
    · simp only [Bool.true_and]
      obtain ⟨ha, _⟩ := rowMatches_groupWhere.mp hm2
      rcases hm : rowMatches [("table_name", Value.VText t)] p.2 with _ | _
      · rfl
      · exfalso
        have : rowFind p.2 "table_name" = some (Value.VText t) := by
          unfold rowMatches at hm
          simpa using hm
        rw [ha] at this
        simp only [Option.some.injEq, Value.VText.injEq] at this
        exact h this

theorem filter_group_append (rows nr : List (Nat × Row)) (t i t2 i2 : Identifier)
    (hmatch : ∀ q ∈ nr, rowMatches (groupWhere t i) q.2 = true) :
    (rows ++ nr).filter (fun p => rowMatches (groupWhere t2 i2) p.2) =
      if t2 = t ∧ i2 = i
      then rows.filter (fun p => rowMatches (groupWhere t2 i2) p.2) ++ nr
      else rows.filter (fun p => rowMatches (groupWhere t2 i2) p.2) := by
  rw [List.filter_append]
  by_cases h : t2 = t ∧ i2 = i
  · rw [if_pos h]
    obtain ⟨rfl, rfl⟩ := h
    have hall : nr.filter (fun p => rowMatches (groupWhere t2 i2) p.2) = nr :=
      List.filter_eq_self.mpr (fun q hq => hmatch q hq)
    rw [hall]
  · rw [if_neg h]
    have hnil : nr.filter (fun p => rowMatches (groupWhere t2 i2) p.2) = [] := by
      apply List.filter_eq_nil_iff.mpr
      intro q hq hq2
      obtain ⟨he1, he2⟩ := groupWhere_unique (hmatch q hq) hq2
      exact h ⟨he1.symm, he2.symm⟩
    rw [hnil, List.append_nil]

/-! ### Invariant preservation: DROP INDEX -/

theorem drop_index_inv (st : DropStatement) (db : DbState) (hinv : IndicesInv db) :
    IndicesInv (SQLExec.drop_index st db).2.1 := by
  obtain ⟨hw, hgroups⟩ := hinv
  simp only [SQLExec.drop_index]
  rcases hd : idxDrop st.name st.indexName db with e1 | db1
  · exact ⟨hw, hgroups⟩
  · have hdb1 : db1 =
        { db with physIdx := db.physIdx.filter (fun p => p.1 != (st.name, st.indexName)) } := by
      unfold idxDrop at hd
      rcases hl : lookupIdx db st.name st.indexName with _ | l
      · rw [hl] at hd
        exact Except.noConfusion hd
      · rw [hl] at hd
        simp only [Except.ok.injEq] at hd
        exact hd.symm
    have hrel1 : db1.indicesRel = db.indicesRel := by rw [hdb1]
    have hw1 : db1.indicesRel.wf := by
      rw [hrel1]
      exact hw
    have hphys1 : ∀ t2 i2, (t2, i2) ≠ (st.name, st.indexName) →
        physIdxHas db t2 i2 → physIdxHas db1 t2 i2 := by
      intro t2 i2 hne hh
      rw [hdb1]
      exact (physIdxHas_filter_ne hne).mpr hh
    dsimp only
    by_cases hempty : (db1.indicesRel.select
        [("table_name", Value.VText st.name),
         ("index_name", Value.VText st.indexName)]).isEmpty = true
    · rw [if_pos hempty]
      refine ⟨hw1, ?_⟩
      intro t2 i2
      have hg : groupRows db1 t2 i2 = groupRows db t2 i2 := by
        unfold groupRows
        rw [hrel1]
      rw [hg]
      obtain ⟨s1, s2, s3⟩ := hgroups t2 i2
      refine ⟨s1, s2, ?_⟩
      intro hne'
      by_cases heq : (t2, i2) = (st.name, st.indexName)
      · exfalso
        have h1 : t2 = st.name := congrArg Prod.fst heq
        have h2 : i2 = st.indexName := congrArg Prod.snd heq
        subst h1
        subst h2
        have hsel : db.indicesRel.select (groupWhere st.name st.indexName) = [] := by
          have := List.isEmpty_iff.mp hempty
          rw [hrel1] at this
          exact this
        exact hne' (groupRows_nil_iff_select_nil.mpr hsel)
      · exact hphys1 t2 i2 heq (s3 hne')
    · rw [if_neg hempty]
      constructor
      · show (db1.indicesRel.delAll
          (db1.indicesRel.select (groupWhere st.name st.indexName))).wf
        exact StoredRel.wf_delAll _ hw1
      · intro t2 i2
        show seqContiguous (((db1.indicesRel.delAll
              (db1.indicesRel.select (groupWhere st.name st.indexName))).rows.filter
                (fun p => rowMatches (groupWhere t2 i2) p.2)).map (fun p => p.2)) ∧
          groupConstant (((db1.indicesRel.delAll
              (db1.indicesRel.select (groupWhere st.name st.indexName))).rows.filter
                (fun p => rowMatches (groupWhere t2 i2) p.2)).map (fun p => p.2)) ∧
          ((((db1.indicesRel.delAll
              (db1.indicesRel.select (groupWhere st.name st.indexName))).rows.filter
                (fun p => rowMatches (groupWhere t2 i2) p.2)).map (fun p => p.2)) ≠ [] →
            physIdxHas db1 t2 i2)
        rw [filter_group_after_delAll hw1]
        by_cases heq : t2 = st.name ∧ i2 = st.indexName
        · rw [if_pos heq]
          exact ⟨seqContiguous_nil, groupConstant_nil, fun hne => absurd rfl hne⟩
        · rw [if_neg heq]
          have hg : ((db1.indicesRel.rows.filter
              (fun p => rowMatches (groupWhere t2 i2) p.2)).map (fun p => p.2)) =
              groupRows db t2 i2 := by
            unfold groupRows
            rw [hrel1]
          obtain ⟨s1, s2, s3⟩ := hgroups t2 i2
          rw [hg]
          refine ⟨s1, s2, ?_⟩
          intro hne'
          have hne2 : (t2, i2) ≠ (st.name, st.indexName) := by
            intro hc
            exact heq ⟨congrArg Prod.fst hc, congrArg Prod.snd hc⟩
          exact hphys1 t2 i2 hne2 (s3 hne')

/-! ### Invariant preservation: CREATE INDEX -/

theorem create_index_inv_ok (db : DbState) (t ix : Identifier)
    (hinv : IndicesInv db) (nr : List (Nat × Row))
    (hh : nr.map Prod.fst = List.range' db.indicesRel.nextHandle nr.length)
    (hmatch : ∀ q ∈ nr, rowMatches (groupWhere t ix) q.2 = true)
    (hseq : nr.map (fun q => (rowFindD q.2 "seq_in_index").getN) =
        (List.range nr.length).map (fun (j : Nat) => (j : Int) + 1))
    (hconst : ∀ q1 ∈ nr, ∀ q2 ∈ nr,
        rowFindD q1.2 "index_type" = rowFindD q2.2 "index_type" ∧
        rowFindD q1.2 "is_unique" = rowFindD q2.2 "is_unique")
    (hempty : db.indicesRel.rows.filter
        (fun p => rowMatches (groupWhere t ix) p.2) = [])
    (db' : DbState)
    (hrel : db'.indicesRel = { rows := db.indicesRel.rows ++ nr,
                               nextHandle := db.indicesRel.nextHandle + nr.length })
    (hphys : db'.physIdx = db.physIdx ++ [((t, ix), [])]) :
    IndicesInv db' := by
  obtain ⟨hw, hgroups⟩ := hinv
  constructor
  · rw [hrel]
    exact StoredRel.wf_append_fresh nr hw hh
  · intro t2 i2
    have hg : groupRows db' t2 i2 =
        ((db.indicesRel.rows ++ nr).filter
          (fun p => rowMatches (groupWhere t2 i2) p.2)).map (fun p => p.2) := by
      unfold groupRows
      rw [hrel]
    rw [hg, filter_group_append db.indicesRel.rows nr t ix t2 i2 hmatch]
    by_cases heq : t2 = t ∧ i2 = ix
    · rw [if_pos heq]
      obtain ⟨rfl, rfl⟩ := heq
      rw [hempty]
      simp only [List.nil_append]
      refine ⟨?_, ?_, ?_⟩
      · unfold seqContiguous
        rw [List.map_map, List.length_map]
        exact hseq
      · intro r1 hr1 r2 hr2
        obtain ⟨q1, hq1, hq1e⟩ := List.mem_map.mp hr1
        obtain ⟨q2, hq2, hq2e⟩ := List.mem_map.mp hr2
        rw [← hq1e, ← hq2e]
        exact hconst q1 hq1 q2 hq2
      · intro _
        rw [physIdxHas_iff]
        refine ⟨((t2, i2), []), ?_, rfl⟩
        rw [hphys]
        exact List.mem_append_right _ (List.mem_singleton_self _)
    · rw [if_neg heq]
      obtain ⟨s1, s2, s3⟩ := hgroups t2 i2
      refine ⟨s1, s2, ?_⟩
      intro hne
      have hdb : physIdxHas db t2 i2 := s3 hne
      rw [physIdxHas_iff] at hdb ⊢
      obtain ⟨x, hx, hxe⟩ := hdb
      refine ⟨x, ?_, hxe⟩
      rw [hphys]
      exact List.mem_append_left _ hx

theorem create_index_inv_err (db : DbState) (t ix : Identifier)
    (hinv : IndicesInv db) (db' : DbState)
    (hwf' : db'.indicesRel.wf)
    (hgrp : ∀ t2 i2, ¬(t2 = t ∧ i2 = ix) →
        db'.indicesRel.rows.filter (fun p => rowMatches (groupWhere t2 i2) p.2) =
          db.indicesRel.rows.filter (fun p => rowMatches (groupWhere t2 i2) p.2))
    (hgrp0 : db'.indicesRel.rows.filter
        (fun p => rowMatches (groupWhere t ix) p.2) = [])
    (hphys : db'.physIdx = db.physIdx.filter (fun p => p.1 != (t, ix))) :
    IndicesInv db' := by
  obtain ⟨hw, hgroups⟩ := hinv
  refine ⟨hwf', ?_⟩
  intro t2 i2
  by_cases heq : t2 = t ∧ i2 = ix
  · obtain ⟨rfl, rfl⟩ := heq
    have hg : groupRows db' t2 i2 = [] := by
      unfold groupRows
      rw [hgrp0]
      rfl
    rw [hg]
    exact ⟨seqContiguous_nil, groupConstant_nil, fun hne => absurd rfl hne⟩
  · have hg : groupRows db' t2 i2 = groupRows db t2 i2 := by
      unfold groupRows
      rw [hgrp t2 i2 heq]
    rw [hg]
    obtain ⟨s1, s2, s3⟩ := hgroups t2 i2
    refine ⟨s1, s2, ?_⟩
    intro hne
    have hne2 : (t2, i2) ≠ (t, ix) := by
      intro hc
      exact heq ⟨congrArg Prod.fst hc, congrArg Prod.snd hc⟩
    unfold physIdxHas lookupIdx
    rw [hphys, find?_filter_ne db.physIdx (t, ix) (t2, i2) hne2]
    exact s3 hne

theorem create_index_inv (st : CreateStatement) (db : DbState) (hinv : IndicesInv db) :
    IndicesInv (SQLExec.create_index st db).2.1 := by
  simp only [SQLExec.create_index]
  split
  · exact hinv
  · obtain ⟨nr, h1, h2, h3, h4, h5⟩ := insertIndexRows_spec st.indexColumns
      [("table_name", Value.VText st.tableName),
       ("index_name", Value.VText st.indexName),
       ("column_name", Value.VText ""),
       ("seq_in_index", Value.VInt 0),
       ("index_type", Value.VText st.indexType),
       ("is_unique", Value.VBool (st.indexType == "BTREE"))] db []
    rcases hins : SQLExec.insertIndexRows st.indexColumns
      [("table_name", Value.VText st.tableName),
       ("index_name", Value.VText st.indexName),
       ("column_name", Value.VText ""),
       ("seq_in_index", Value.VInt 0),
       ("index_type", Value.VText st.indexType),
       ("is_unique", Value.VBool (st.indexType == "BTREE"))] db []
      with ⟨db1, evs⟩
    rw [hins] at h1
    dsimp only at h1
    dsimp only
    have hmatch : ∀ q ∈ nr,
        rowMatches (groupWhere st.tableName st.indexName) q.2 = true := by
      intro q hq
      obtain ⟨f1, f2, _, _⟩ := h4 q hq
      apply rowMatches_groupWhere.mpr
      constructor
      · rw [f1]
        rfl
      · rw [f2]
        rfl
    have hseq : nr.map (fun q => (rowFindD q.2 "seq_in_index").getN) =
        (List.range nr.length).map (fun (j : Nat) => (j : Int) + 1) := by
      rw [h5, h3]
      apply List.map_congr_left
      intro j _
      show (0 : Int) + (j : Int) + 1 = (j : Int) + 1
      omega
    have hconst : ∀ q1 ∈ nr, ∀ q2 ∈ nr,
        rowFindD q1.2 "index_type" = rowFindD q2.2 "index_type" ∧
        rowFindD q1.2 "is_unique" = rowFindD q2.2 "is_unique" := by
      intro q1 hq1 q2 hq2
      obtain ⟨_, _, f3, f4⟩ := h4 q1 hq1
      obtain ⟨_, _, g3, g4⟩ := h4 q2 hq2
      unfold rowFindD
      rw [f3, g3, f4, g4]
      exact ⟨rfl, rfl⟩
    split
    · next db2 hok =>
        have hdb2 : { db1 with physIdx :=
              db1.physIdx ++ [((st.tableName, st.indexName), [])] } = db2 ∧
            lookupIdx db1 st.tableName st.indexName = none := by
          unfold idxCreate at hok
          rcases hl : lookupIdx db1 st.tableName st.indexName with _ | l
          · rw [hl] at hok
            simp only [Except.ok.injEq] at hok
            exact ⟨hok, rfl⟩
          · rw [hl] at hok
            exact Except.noConfusion hok
        obtain ⟨hdb2e, hnone⟩ := hdb2
        have hnodb : lookupIdx db st.tableName st.indexName = none := by
          rw [h1] at hnone
          exact hnone
        have hempty : db.indicesRel.rows.filter
            (fun p => rowMatches (groupWhere st.tableName st.indexName) p.2) = [] := by
          obtain ⟨_, hgroups⟩ := hinv
          obtain ⟨_, _, s3⟩ := hgroups st.tableName st.indexName
          by_contra hne
          have hgr : groupRows db st.tableName st.indexName ≠ [] := by
            unfold groupRows
            intro hc
            exact hne (List.map_eq_nil_iff.mp hc)
          have hph := s3 hgr
          unfold physIdxHas at hph
          rw [hnodb] at hph
          simp at hph
        refine create_index_inv_ok db st.tableName st.indexName hinv nr h2 hmatch hseq
          hconst hempty db2 ?_ ?_
        · rw [← hdb2e, h1]
        · rw [← hdb2e, h1]
    · next e herr =>
        have hsome : ∃ l, lookupIdx db1 st.tableName st.indexName = some l := by
          unfold idxCreate at herr
          rcases hl : lookupIdx db1 st.tableName st.indexName with _ | l
          · rw [hl] at herr
            exact Except.noConfusion herr
          · exact ⟨l, rfl⟩
        obtain ⟨l, hsome⟩ := hsome
        have hido : idxDrop st.tableName st.indexName db1 = Except.ok
            { db1 with physIdx := db1.physIdx.filter (fun p => p.1 != (st.tableName, st.indexName)) } := by
          unfold idxDrop
          rw [hsome]
        have hw1 : db1.indicesRel.wf := by
          rw [h1]
          exact StoredRel.wf_append_fresh nr hinv.1 h2
        have hstep : ∀ t2 i2, ¬(t2 = st.tableName ∧ i2 = st.indexName) →
            db1.indicesRel.rows.filter (fun p => rowMatches (groupWhere t2 i2) p.2) =
              db.indicesRel.rows.filter (fun p => rowMatches (groupWhere t2 i2) p.2) := by
          intro t2 i2 hne
          rw [h1]
          dsimp only
          rw [filter_group_append db.indicesRel.rows nr st.tableName st.indexName
            t2 i2 hmatch, if_neg hne]
        have hphysf : db1.physIdx.filter (fun p => p.1 != (st.tableName, st.indexName)) =
            db.physIdx.filter (fun p => p.1 != (st.tableName, st.indexName)) := by
          rw [h1]
        have hmain : IndicesInv (SQLExec.drop_index
            { type := DropEntity.kIndex, name := st.tableName,
              indexName := st.indexName } db1).2.1 := by
          simp only [SQLExec.drop_index]
          rw [hido]
          dsimp only
          split
          · next hempt =>
              have hflt : db1.indicesRel.rows.filter
                  (fun p => rowMatches (groupWhere st.tableName st.indexName) p.2) = [] := by
                have hsel := List.isEmpty_iff.mp hempt
                unfold StoredRel.select at hsel
                exact List.map_eq_nil_iff.mp hsel
              exact create_index_inv_err db st.tableName st.indexName hinv _
                hw1 (fun t2 i2 hne => hstep t2 i2 hne) hflt hphysf
          · next hempt =>
              refine create_index_inv_err db st.tableName st.indexName hinv _
                ?_ ?_ ?_ hphysf
              · show (db1.indicesRel.delAll
                    (db1.indicesRel.select (groupWhere st.tableName st.indexName))).wf
                exact StoredRel.wf_delAll _ hw1
              · intro t2 i2 hne
                show (db1.indicesRel.delAll
                    (db1.indicesRel.select (groupWhere st.tableName st.indexName))).rows.filter
                      (fun p => rowMatches (groupWhere t2 i2) p.2) =
                  db.indicesRel.rows.filter (fun p => rowMatches (groupWhere t2 i2) p.2)
                rw [filter_group_after_delAll hw1 st.tableName st.indexName t2 i2,
                  if_neg hne]
                exact hstep t2 i2 hne
              · show (db1.indicesRel.delAll
                    (db1.indicesRel.select (groupWhere st.tableName st.indexName))).rows.filter
                      (fun p => rowMatches (groupWhere st.tableName st.indexName) p.2) = []
                rw [filter_group_after_delAll hw1 st.tableName st.indexName
                  st.tableName st.indexName, if_pos ⟨rfl, rfl⟩]
        rcases hdi : SQLExec.drop_index
            { type := DropEntity.kIndex, name := st.tableName,
              indexName := st.indexName } db1 with ⟨out, db3, devs⟩
        rw [hdi] at hmain
        rcases out with q | e2 | _
        · exact hmain
        · exact hmain
        · exact hmain

/-! ### Invariant preservation: DROP TABLE -/

theorem physTableDrop_ok_fields (t : Identifier) (db db' : DbState)
    (h : physTableDrop t db = Except.ok db') :
    db'.tablesRel = db.tablesRel ∧ db'.columnsRel = db.columnsRel ∧
    db'.indicesRel = db.indicesRel ∧ db'.physIdx = db.physIdx := by
  unfold physTableDrop at h
  rcases hl : lookupRel db t with _ | r
  · rw [hl] at h
    exact Except.noConfusion h
  · rw [hl] at h
    simp only [Except.ok.injEq] at h
    rw [← h]
    exact ⟨rfl, rfl, rfl, rfl⟩

theorem drop_table_inv (st : DropStatement) (db : DbState) (hinv : IndicesInv db) :
    IndicesInv (SQLExec.drop_table st db).2.1 := by
  have hgen : ∀ db' : DbState,
      db'.indicesRel = db.indicesRel.delAll
        (db.indicesRel.select [("table_name", Value.VText st.name)]) →
      (∀ t2 i2, physIdxHas db t2 i2 → physIdxHas db' t2 i2) →
      IndicesInv db' := by
    intro db' hrel hphys
    obtain ⟨hw, hgroups⟩ := hinv
    constructor
    · rw [hrel]
      exact StoredRel.wf_delAll _ hw
    · intro t2 i2
      have hg : groupRows db' t2 i2 = ((db.indicesRel.delAll
          (db.indicesRel.select [("table_name", Value.VText st.name)])).rows.filter
            (fun p => rowMatches (groupWhere t2 i2) p.2)).map (fun p => p.2) := by
        unfold groupRows
        rw [hrel]
      rw [hg, filter_group_after_delTable hw st.name t2 i2]
      by_cases heq : t2 = st.name
      · rw [if_pos heq]
        exact ⟨seqContiguous_nil, groupConstant_nil, fun hne => absurd rfl hne⟩
      · rw [if_neg heq]
        obtain ⟨s1, s2, s3⟩ := hgroups t2 i2
        exact ⟨s1, s2, fun hne => hphys t2 i2 (s3 hne)⟩
  obtain ⟨hw, hgroups⟩ := hinv
  simp only [SQLExec.drop_table]
  split
  · exact ⟨hw, hgroups⟩
  · split
    · exact ⟨hw, hgroups⟩
    · split
      · exact ⟨hw, hgroups⟩
      · split
        · apply hgen
          · rfl
          · intro t2 i2 hh
            exact hh
        · next db3 heq =>
            obtain ⟨_, _, hrel3, hphys3⟩ := physTableDrop_ok_fields _ _ _ heq
            split
            · apply hgen
              · rw [hrel3]
              · intro t2 i2 hh
                unfold physIdxHas lookupIdx
                rw [hphys3]
                exact hh
            · apply hgen
              · show db3.indicesRel = _
                rw [hrel3]
              · intro t2 i2 hh
                show (Option.map _ (List.find? _ db3.physIdx)).isSome = true
                rw [hphys3]
                exact hh

/-- A database whose `_indices` relation holds no rows satisfies the
group invariant outright. -/
theorem IndicesInv_of_nil {db : DbState} (h : db.indicesRel.rows = []) :
    IndicesInv db := by
  constructor
  · constructor
    · intro p hp
      rw [h] at hp
      exact absurd hp (List.not_mem_nil p)
    · rw [h]
      exact List.Pairwise.nil
  · intro t i
    have hg : groupRows db t i = [] := by
      unfold groupRows
      rw [h]
      rfl
    rw [hg]
    exact ⟨seqContiguous_nil, groupConstant_nil, fun hne => absurd rfl hne⟩

/-- C3: after any completed statement, every (table_name, index_name) group
of `_indices` rows has seq_in_index values forming the contiguous ascending
sequence 1, 2, ... and constant index_type/is_unique (the executor preserves
the group invariant `IndicesInv`); and in particular CREATE INDEX ix ON t
(x, y) with both columns in the schema and no pre-existing physical index
appends exactly one `_indices` row per indexed column, carrying
seq_in_index 1 and 2 respectively and is_unique = (index_type == "BTREE"),
which is true exactly when index_type equals "BTREE". -/
theorem indices_group_invariant :
    (∀ (f : Faults) (s : SQLStatement) (db : DbState),
        IndicesInv db → IndicesInv (SQLExec.execute f s db).2.1) ∧
    (∀ (st : CreateStatement) (db : DbState) (x y : Identifier),
        st.indexColumns = [x, y] →
        (tableColumnNames db st.tableName).contains x = true →
        (tableColumnNames db st.tableName).contains y = true →
        lookupIdx db st.tableName st.indexName = none →
        (SQLExec.create_index st db).2.1.indicesRel.rows =
          db.indicesRel.rows ++
            [(db.indicesRel.nextHandle,
              [("table_name", Value.VText st.tableName),
               ("index_name", Value.VText st.indexName),
               ("column_name", Value.VText x),
               ("seq_in_index", Value.VInt 1),
               ("index_type", Value.VText st.indexType),
               ("is_unique", Value.VBool (st.indexType == "BTREE"))]),
             (db.indicesRel.nextHandle + 1,
              [("table_name", Value.VText st.tableName),
               ("index_name", Value.VText st.indexName),
               ("column_name", Value.VText y),
               ("seq_in_index", Value.VInt 2),
               ("index_type", Value.VText st.indexType),
               ("is_unique", Value.VBool (st.indexType == "BTREE"))])] ∧
        ((st.indexType == "BTREE") = true ↔ st.indexType = "BTREE")) := by
  constructor
  · intro f s db hinv
    rcases s with st | st | st | st | st | st | _
    · simp only [SQLExec.execute]
      rw [wrapRelationError_state]
      simp only [SQLExec.create]
      split
      · refine IndicesInv_of_eq hinv (create_table_indices_unchanged f st db).1 ?_
        intro t i hh
        unfold physIdxHas lookupIdx
        rw [(create_table_indices_unchanged f st db).2]
        exact hh
      · exact create_index_inv st db hinv
    · simp only [SQLExec.execute]
      rw [wrapRelationError_state]
      simp only [SQLExec.drop]
      split
      · exact drop_table_inv st db hinv
      · exact drop_index_inv st db hinv
    · simp only [SQLExec.execute]
      rw [wrapRelationError_state]
      rw [showStmt_state st db]
      exact hinv
    · simp only [SQLExec.execute]
      rw [wrapRelationError_state]
      exact IndicesInv_of_eq hinv (insert_indices_unchanged st db).1
        (insert_indices_unchanged st db).2
    · simp only [SQLExec.execute]
      rw [wrapRelationError_state]
      refine IndicesInv_of_eq hinv (del_state_fields st db).1 ?_
      intro t i hh
      unfold physIdxHas lookupIdx
      rw [(del_state_fields st db).2]
      exact hh
    · simp only [SQLExec.execute]
      rw [wrapRelationError_state]
      rw [select_state st db]
      exact hinv
    · simp only [SQLExec.execute]
      rw [wrapRelationError_state]
      exact hinv
  · intro st db x y hcols hx hy hnone
    constructor
    · simp only [SQLExec.create_index]
      rw [hcols]
      have hfind : List.find?
          (fun c => !(tableColumnNames db st.tableName).contains c) [x, y] = none := by
        have hx' : x ∈ tableColumnNames db st.tableName := by simpa using hx
        have hy' : y ∈ tableColumnNames db st.tableName := by simpa using hy
        simp [List.find?_cons, hx', hy']
      rw [hfind]
      dsimp only
      rcases hic : SQLExec.insertIndexRows [x, y]
        [("table_name", Value.VText st.tableName),
         ("index_name", Value.VText st.indexName),
         ("column_name", Value.VText ""),
         ("seq_in_index", Value.VInt 0),
         ("index_type", Value.VText st.indexType),
         ("is_unique", Value.VBool (st.indexType == "BTREE"))] db []
        with ⟨db1, evs⟩
      have hfst := congrArg Prod.fst hic
      dsimp only at hfst
      have hdb1 : db1 = { db with indicesRel :=
          { rows := db.indicesRel.rows ++
              [(db.indicesRel.nextHandle, [("table_name", Value.VText st.tableName), ("index_name", Value.VText st.indexName), ("column_name", Value.VText x), ("seq_in_index", Value.VInt 1), ("index_type", Value.VText st.indexType), ("is_unique", Value.VBool (st.indexType == "BTREE"))]),
               (db.indicesRel.nextHandle + 1, [("table_name", Value.VText st.tableName), ("index_name", Value.VText st.indexName), ("column_name", Value.VText y), ("seq_in_index", Value.VInt 2), ("index_type", Value.VText st.indexType), ("is_unique", Value.VBool (st.indexType == "BTREE"))])],
            nextHandle := db.indicesRel.nextHandle + 1 + 1 } } := by
        rw [← hfst]
        simp [SQLExec.insertIndexRows, rowSet, rowFindD, rowFind, Value.getN,
          StoredRel.insert]
      have hl1 : lookupIdx db1 st.tableName st.indexName = none := by
        rw [hdb1]
        unfold lookupIdx at hnone ⊢
        exact hnone
      have hido : idxCreate st.tableName st.indexName db1 = Except.ok
          { db1 with physIdx := db1.physIdx ++ [((st.tableName, st.indexName), [])] } := by
        unfold idxCreate
        rw [hl1]
      rw [hido]
      dsimp only
      rw [hdb1]
    · exact beq_iff_eq

/-- Witness for C3 at a concrete input: starting from the state after
`CREATE TABLE goober (x, y, z)`, whose `_indices` relation is empty, the
invariant holds after executing `CREATE INDEX fx ON goober (x, y) USING
BTREE`, and that statement appends exactly the two expected `_indices`
rows. -/
theorem indices_group_invariant_witness :
    IndicesInv (SQLExec.execute noFaults (SQLStatement.create cixFx) dbGoober).2.1 ∧
    ((SQLExec.create_index cixFx dbGoober).2.1.indicesRel.rows =
        dbGoober.indicesRel.rows ++
          [(dbGoober.indicesRel.nextHandle,
            [("table_name", Value.VText cixFx.tableName),
             ("index_name", Value.VText cixFx.indexName),
             ("column_name", Value.VText "x"),
             ("seq_in_index", Value.VInt 1),
             ("index_type", Value.VText cixFx.indexType),
             ("is_unique", Value.VBool (cixFx.indexType == "BTREE"))]),
           (dbGoober.indicesRel.nextHandle + 1,
            [("table_name", Value.VText cixFx.tableName),
             ("index_name", Value.VText cixFx.indexName),
             ("column_name", Value.VText "y"),
             ("seq_in_index", Value.VInt 2),
             ("index_type", Value.VText cixFx.indexType),
             ("is_unique", Value.VBool (cixFx.indexType == "BTREE"))])] ∧
      ((cixFx.indexType == "BTREE") = true ↔ cixFx.indexType = "BTREE")) :=
  ⟨indices_group_invariant.1 noFaults (SQLStatement.create cixFx) dbGoober
      (IndicesInv_of_nil rfl),
   indices_group_invariant.2 cixFx dbGoober "x" "y" rfl (by decide) (by decide)
      (by decide)⟩

end Echidna
